import Mathlib

/-!
# WebSQL bridge: shallow embedding of `websql/websql.go` and `websql/handler.go`

The Go package keeps two process-wide registries (`databases`, `transactions`),
one shared 32-bit identifier counter and talks to a SQLite engine through
`database/sql`.  The embedding below passes this state explicitly.  The engine
itself is not part of the repository; the part of it the code relies on (the
reserved metadata table, transactions, the connection counters, failures) is
modelled from the specification and marked as such.
-/

namespace WebSQL

/-! ## Constants (websql.go, lines 21-60) -/

def databaseInfoTable : String := "__pro_database_info"

def WEBSQL_UNKNOWN_ERR : Int := 0
def WEBSQL_DATABASE_ERR : Int := 1
def WEBSQL_VERSION_ERR : Int := 2
def WEBSQL_TOO_LARGE_ERR : Int := 3
def WEBSQL_QUOTA_ERR : Int := 4
def WEBSQL_SYNTAX_ERR : Int := 5
def WEBSQL_CONSTRAINT_ERR : Int := 6
def WEBSQL_TIMEOUT_ERR : Int := 7

def WEBKIT_INVALID_STATE_ERR : Int := 11

/-- Modelled from the spec: the authorizer action code the engine binding reports
for an INSERT (`sqlite3.SQLITE_INSERT`); the binding is not part of the repository. -/
def SQLITE_INSERT : Int := 18

/-- Modelled from the spec: the engine binding's error code for "database or disk
is full" (`sqlite3.ErrFull`); the binding is not part of the repository. -/
def ErrFull : Int := 13

/-! ## Machine integers -/

/-- Result of `atomic.AddUint32(&n, delta)`: addition modulo `2^32`. -/
def addUint32 (n delta : Nat) : Nat := (n + delta) % 2 ^ 32

/-- Two's-complement wrap of a mathematical integer into the `int64` range. -/
def wrapInt64 (x : Int) : Int := (x + 2 ^ 63) % 2 ^ 64 - 2 ^ 63

/-- Go `int64` subtraction. -/
def subInt64 (a b : Int) : Int := wrapInt64 (a - b)

/-! ## Go maps as association lists -/

/-- Map lookup `m[k]`; `none` stands for the zero value of a missing key. -/
def mapGet {κ α : Type} [DecidableEq κ] (m : List (κ × α)) (k : κ) : Option α :=
  match m with
  | [] => none
  | p :: rest => if p.1 = k then some p.2 else mapGet rest k

/-- Go `delete(m, k)`. -/
def mapDelete {κ α : Type} [DecidableEq κ] (m : List (κ × α)) (k : κ) : List (κ × α) :=
  m.filter (fun p => decide (p.1 ≠ k))

/-- Go `m[k] = v`. -/
def mapSet {κ α : Type} [DecidableEq κ] (m : List (κ × α)) (k : κ) (v : α) : List (κ × α) :=
  (k, v) :: mapDelete m k

/-! ## Values and errors -/

/-- A dynamically typed cell as the driver hands it to `rows.Scan` into an
`interface{}`: nil, int64, float64 (kept as its bit pattern), string or `[]byte`. -/
inductive Cell where
  | null
  | integer (v : Int)
  | real (bits : Nat)
  | text (s : String)
  | blob (bytes : List Nat)
  deriving DecidableEq, Repr

/-- An error value that is neither `*SqlError` nor `*WebKitException`: either the
binding's `sqlite3.Error` (with its code) or any other `error`. `msg` is `Error()`. -/
inductive PlainError where
  | sqlite3 (code : Int) (msg : String)
  | other (msg : String)
  deriving DecidableEq, Repr

def PlainError.Error : PlainError → String
  | .sqlite3 _ msg => msg
  | .other msg => msg

/-- Go `error` values that reach the callers of this package:
`*SqlError{Code, Message, Err}`, `*WebKitException{Code, Name, Message, Err}`,
or an error passed through unchanged. -/
inductive GoError where
  | sqlError (code : Int) (message : String) (err : Option PlainError)
  | webKitException (code : Int) (name : String) (message : String) (err : Option PlainError)
  | plain (e : PlainError)
  deriving DecidableEq, Repr

deriving instance DecidableEq for Except

/-! ## Result cursors and `buildStruct` (websql.go, lines 576-601) -/

/-- One row of a cursor as seen by `rows.Scan`: the cells that ended up in the
destination slots and the error `Scan` returned (which `buildStruct` drops). -/
structure ScannedRow where
  cells : List Cell
  scanErr : Option PlainError := none
  deriving DecidableEq, Repr

/-- Modelled from the spec: a `*sql.Rows` result cursor (the engine is not part
of the repository): the outcome of `Columns()`, the rows `Next()` yields, and
the value of `Err()` once iteration stops. -/
structure Cursor where
  columnsErr : Option PlainError := none
  columns : List String
  rows : List ScannedRow
  err : Option PlainError := none
  deriving DecidableEq, Repr

/-- A record `map[string]interface{}`. -/
abbrev Record := List (String × Cell)

/-- The slice `vers` after `Scan`: `len(cols)` slots, nil where nothing was stored. -/
def scanSlots (n : Nat) (cells : List Cell) : List Cell :=
  (cells ++ List.replicate n Cell.null).take n

/-- Loop `row[cols[i]] = vers[i]` of `buildStruct`. -/
def buildRow (cols : List String) (cells : List Cell) : Record :=
  (cols.zip (scanSlots cols.length cells)).foldl (fun row p => mapSet row p.1 p.2) []

/-- Go `buildStruct`: returns the pair `(ret, err)`. -/
def buildStruct (rows : Cursor) : List Record × Option PlainError :=
  match rows.columnsErr with
  | some e => ([], some e)
  | none => (rows.rows.map (fun r => buildRow rows.columns r.cells), rows.err)

/-! ## Engine model -/

/-- Modelled from the spec: the content of one backing database file, of which
only the reserved metadata table `__pro_database_info (id, version)` is kept:
`none` when the table does not exist, else its rows in rowid order. -/
structure DbFile where
  info : Option (List (Int × Cell))
  deriving DecidableEq, Repr

/-- Modelled from the spec: the connection-global counters read by `conn.GetInfo()`
(last-insert-rowid and total-changes), both `int64`. -/
structure ConnInfo where
  lastInsertRowId : Int
  totalChanges : Int
  deriving DecidableEq, Repr

/-- A `*sql.DB` handle: its identity and the backing file it was opened on. -/
structure DB where
  ptr : Nat
  path : String
  deriving DecidableEq, Repr

/-- Modelled from the spec: a `*sql.Tx` native transaction: its identity, the file
it works on, its own view of the file and the counters of its connection. -/
structure Tx where
  ptr : Nat
  path : String
  view : DbFile
  conn : ConnInfo
  deriving DecidableEq, Repr

/-- Go `TxWrapper` (websql.go, lines 67-71). -/
structure TxWrapper where
  tx : Tx
  db : DB
  isLastActionInsert : Bool
  deriving DecidableEq, Repr

/-- Calls the package makes on the engine that end a handle or a native transaction. -/
inductive EngineEvent where
  | dbClose (db : Nat)
  | txCommit (tx : Nat)
  | txRollback (tx : Nat)
  deriving DecidableEq, Repr

/-- Package state: the globals `databases`, `transactions`, `nextId`, `dbDir`,
`beginHook` of websql.go (lines 62-64, 97, 107) together with the modelled engine:
the database files of the DB directory, the scheduled engine failures
(`(k, e)` makes the call after `k` successful ones fail with `e`), the supply of
fresh handle identities and the trace of terminal engine calls. -/
structure State where
  databases : List (Nat × DB)
  transactions : List (Nat × TxWrapper)
  nextId : Nat
  dbDir : String
  beginHook : Bool
  files : List (String × DbFile)
  faults : List (Nat × PlainError)
  nextPtr : Nat
  events : List EngineEvent
  deriving DecidableEq, Repr

/-- State of a freshly started process on an empty DB directory. -/
def State.init : State :=
  { databases := [], transactions := [], nextId := 0, dbDir := "", beginHook := false,
    files := [], faults := [], nextPtr := 0, events := [] }

/-- Modelled from the spec: outcome of one engine call: it fails when a failure is
scheduled for it, otherwise it succeeds. -/
def popFault (s : State) : Option PlainError × State :=
  match s.faults with
  | [] => (none, s)
  | (0, e) :: rest => (some e, { s with faults := rest })
  | (k + 1, e) :: rest => (none, { s with faults := (k, e) :: rest })

/-- Content of the backing file at `path`; a missing file is a fresh database. -/
def fileOf (s : State) (path : String) : DbFile :=
  (mapGet s.files path).getD { info := none }

/-! ## Backing file name (websql.go, lines 120-125) -/

def hexDigits : List Char := "0123456789abcdef".toList

def upperHexDigits : List Char := "0123456789ABCDEF".toList

/-- The bytes of a Go string. -/
def utf8Bytes (s : String) : List Nat :=
  (s.data.flatMap String.utf8EncodeChar).map UInt8.toNat

/-- Go `hex.EncodeToString`: two lowercase digits per byte. -/
def hexEncode (bytes : List Nat) : List Char :=
  bytes.flatMap (fun b => [hexDigits.getD (b / 16) '0', hexDigits.getD (b % 16) '0'])

/-- Bytes that `url.QueryEscape` leaves alone: ASCII letters, digits and `-_.~`. -/
def isUnreserved (b : Nat) : Bool :=
  (97 ≤ b && b ≤ 122) || (65 ≤ b && b ≤ 90) || (48 ≤ b && b ≤ 57) ||
    b == 45 || b == 95 || b == 46 || b == 126

/-- Go `url.QueryEscape` on the bytes of a string: a space becomes `+`, other
escaped bytes become `%XX` with uppercase digits. -/
def queryEscape (bytes : List Nat) : List Char :=
  bytes.flatMap (fun b =>
    if isUnreserved b then [Char.ofNat b]
    else if b = 32 then ['+']
    else ['%', upperHexDigits.getD (b / 16) '0', upperHexDigits.getD (b % 16) '0'])

/-- The file name `Open` derives from a logical database name. -/
def dbFileName (name : String) : String :=
  String.mk (queryEscape (utf8Bytes name) ++ ['_'] ++ hexEncode (utf8Bytes name) ++ ".db".toList)

/-- Modelled from the spec: `filepath.Join(dbDir, name)` for a file name without
separators, placed in the configured directory (the library is not part of the
repository; the directory is taken as already clean). -/
def filepathJoin (dir file : String) : String := dir ++ "/" ++ file

/-- Path handed to `sql.Open` by `Open`. -/
def dbPath (dbDir name : String) : String :=
  if dbDir ≠ "" then filepathJoin dbDir (dbFileName name) else dbFileName name

/-- UTF-8 encoding of a code point, computed on natural numbers; `utf8Bytes` yields
these bytes for every character (theorem `utf8EncodeChar_toNat`). -/
def utf8Nat (v : Nat) : List Nat :=
  if v ≤ 0x7f then [v]
  else if v ≤ 0x7ff then [v / 64 + 192, v % 64 + 128]
  else if v ≤ 0xffff then [v / 4096 + 224, v / 64 % 64 + 128, v % 64 + 128]
  else [v / 262144 + 240, v / 4096 % 64 + 128, v / 64 % 64 + 128, v % 64 + 128]

/-! ## Metadata helper (websql.go, lines 502-574) -/

/-- Modelled from the spec: the engine's error for a statement on a missing table. -/
def noSuchTable : PlainError := .sqlite3 1 ("no such table: " ++ databaseInfoTable)

/-- Modelled from the spec: the engine's error for creating a table that exists. -/
def tableExists : PlainError := .sqlite3 1 ("table " ++ databaseInfoTable ++ " already exists")

/-- Modelled from the spec: an engine query. `Query` fails when a failure is
scheduled or the statement cannot be prepared (`c` is an error); otherwise it
yields the cursor `c`, whose `Err()` reports a failure scheduled for the iteration. -/
def engineQuery (s : State) (c : Except PlainError Cursor) : Except PlainError Cursor × State :=
  match popFault s with
  | (some e, s1) => (.error e, s1)
  | (none, s1) =>
    match c with
    | .error e => (.error e, s1)
    | .ok cur =>
      match popFault s1 with
      | (re, s2) => (.ok { cur with err := re }, s2)

/-- Modelled from the spec: rows of `SELECT name FROM sqlite_master WHERE type='table'
AND name='__pro_database_info'` on a database file. -/
def masterCursor (f : DbFile) : Cursor :=
  { columns := ["name"],
    rows := if f.info.isSome then [{ cells := [Cell.text databaseInfoTable] }] else [] }

/-- Modelled from the spec: rows of `SELECT * from __pro_database_info`. -/
def infoCursor (f : DbFile) : Except PlainError Cursor :=
  match f.info with
  | none => .error noSuchTable
  | some rows =>
    .ok { columns := ["id", "version"],
          rows := rows.map (fun r => { cells := [Cell.integer r.1, r.2] }) }

/-- Insert a row keeping rowid order. -/
def insertRow (r : Int × Cell) : List (Int × Cell) → List (Int × Cell)
  | [] => [r]
  | x :: xs => if r.1 < x.1 then r :: x :: xs else x :: insertRow r xs

/-- Modelled from the spec: effect of `REPLACE INTO __pro_database_info (id, version)
VALUES (0, ?)` on a database file. -/
def replaceInfo (f : DbFile) (version : String) : Except PlainError DbFile :=
  match f.info with
  | none => .error noSuchTable
  | some rows =>
    .ok { info := some (insertRow (0, Cell.text version) (rows.filter (fun r => decide (r.1 ≠ 0)))) }

/-- Modelled from the spec: effect of the `CREATE TABLE __pro_database_info` statement. -/
def createInfo (f : DbFile) : Except PlainError DbFile :=
  match f.info with
  | none => .ok { info := some [] }
  | some _ => .error tableExists

/-- Go `doesDatabaseInfoExists`. -/
def doesDatabaseInfoExists (s : State) (db : DB) : Except PlainError Bool × State :=
  match engineQuery s (.ok (masterCursor (fileOf s db.path))) with
  | (.error e, s1) => (.error e, s1)
  | (.ok rows, s1) =>
    match buildStruct rows with
    | (_, some e) => (.error e, s1)
    | (data, none) => (.ok (decide (data.length = 1)), s1)

/-- Common tail of `DatabaseVersion`, `getDatabaseVersion` and `getDatabaseVersionByTx`:
from the result of the `SELECT *` query to the version string. -/
def versionOfQuery (r : Except PlainError Cursor) : Except PlainError String :=
  match r with
  | .error e => .error e
  | .ok rows =>
    match buildStruct rows with
    | (_, some e) => .error e
    | (infos, none) =>
      match infos with
      | [] => .ok ""
      | first :: _ =>
        match mapGet first "version" with
        | some (Cell.text verStr) => .ok verStr
        | _ => .error (.other "version is not string")

/-- Go `getDatabaseVersion`. -/
def getDatabaseVersion (s : State) (db : DB) : Except PlainError String × State :=
  match engineQuery s (infoCursor (fileOf s db.path)) with
  | (r, s1) => (versionOfQuery r, s1)

/-- Go `getDatabaseVersionByTx`. -/
def getDatabaseVersionByTx (s : State) (tx : Tx) : Except PlainError String × State :=
  match engineQuery s (infoCursor tx.view) with
  | (r, s1) => (versionOfQuery r, s1)

/-- Modelled from the spec: an engine statement run with `db.Exec` on the backing
file at `path`: it fails when a failure is scheduled or the statement itself fails. -/
def engineExec (s : State) (path : String) (effect : DbFile → Except PlainError DbFile) :
    Option PlainError × State :=
  match popFault s with
  | (some e, s1) => (some e, s1)
  | (none, s1) =>
    match effect (fileOf s1 path) with
    | .error e => (some e, s1)
    | .ok f => (none, { s1 with files := mapSet s1.files path f })

/-- Go `createDatabaseInfo`. -/
def createDatabaseInfo (s : State) (db : DB) : Option PlainError × State :=
  engineExec s db.path createInfo

/-- Go `setDatabaseVersion`. -/
def setDatabaseVersion (s : State) (db : DB) (version : String) : Option PlainError × State :=
  engineExec s db.path (fun f => replaceInfo f version)

/-- Go `setDatabaseVersionByTx`: the statement acts on the view of the transaction. -/
def setDatabaseVersionByTx (s : State) (tx : Tx) (version : String) :
    Option PlainError × State × Tx :=
  match popFault s with
  | (some e, s1) => (some e, s1, tx)
  | (none, s1) =>
    match replaceInfo tx.view version with
    | .error e => (some e, s1, tx)
    | .ok f => (none, s1, { tx with view := f })

/-- The call `db.Close()`; its result is dropped everywhere. -/
def dbClose (s : State) (db : DB) : State :=
  match popFault s with
  | (_, s1) => { s1 with events := s1.events ++ [EngineEvent.dbClose db.ptr] }

/-- The call `tx.Rollback()`. -/
def txRollback (s : State) (tx : Nat) : Option PlainError × State :=
  match popFault s with
  | (r, s1) => (r, { s1 with events := s1.events ++ [EngineEvent.txRollback tx] })

/-! ## DB registry and transaction manager (websql.go, lines 114-500) -/

def txMissing : String := "tx missing (aborted?)"

def dbNotFound : String := "internal error(db not found)"

/-- Message of the version-mismatch exception raised by `Open` (the `fmt.Sprintf`
at websql.go line 158). -/
def versionMismatchMessage (version curVer : String) : String :=
  "Failed to execute 'openDatabase' on 'Window': unable to open database, version mismatch, '"
    ++ version ++ "' does not match the currentVersion of '" ++ curVer ++ "'"

/-- Tail of `Open` (websql.go, lines 195-200): allocate the identifier and
register the handle. -/
def registerDb (s : State) (db : DB) (created : Bool) : Except GoError (Nat × Bool) × State :=
  let dbId := addUint32 s.nextId 1
  (.ok (dbId, created), { s with nextId := dbId, databases := mapSet s.databases dbId db })

/-- Go `Open`: returns `(dbId, created)` or the error. -/
def Open (s : State) (name version : String) (hasCreationCallback : Bool) :
    Except GoError (Nat × Bool) × State :=
  let path := dbPath s.dbDir name
  match popFault s with
  | (some err, s1) => (.error (.plain err), s1)
  | (none, s1) =>
    let db : DB := { ptr := s1.nextPtr, path := path }
    let s2 := { s1 with nextPtr := s1.nextPtr + 1 }
    match doesDatabaseInfoExists s2 db with
    | (.error err, s3) => (.error (.plain err), dbClose s3 db)
    | (.ok true, s3) =>
      if version ≠ "" then
        match getDatabaseVersion s3 db with
        | (.error err, s4) => (.error (.plain err), dbClose s4 db)
        | (.ok curVer, s4) =>
          if curVer ≠ version then
            (.error (.webKitException WEBKIT_INVALID_STATE_ERR "InvalidStateError"
              (versionMismatchMessage version curVer) none), dbClose s4 db)
          else registerDb s4 db false
      else registerDb s3 db false
    | (.ok false, s3) =>
      -- PRAGMA auto_vacuum = full: a failure is only logged
      match popFault s3 with
      | (_, s4) =>
        match createDatabaseInfo s4 db with
        | (some err, s5) => (.error (.plain err), dbClose s5 db)
        | (none, s5) =>
          let ver := if hasCreationCallback then "" else version
          match setDatabaseVersion s5 db ver with
          | (some err, s6) => (.error (.plain err), dbClose s6 db)
          | (none, s6) => registerDb s6 db true

/-- Go `DatabaseVersion`. -/
def DatabaseVersion (s : State) (dbId : Nat) : Except GoError String × State :=
  match mapGet s.databases dbId with
  | none => (.error (.sqlError WEBSQL_UNKNOWN_ERR dbNotFound none), s)
  | some db =>
    match engineQuery s (infoCursor (fileOf s db.path)) with
    | (r, s1) =>
      match versionOfQuery r with
      | .error e => (.error (.plain e), s1)
      | .ok v => (.ok v, s1)

/-- Modelled from the spec: what the engine does with one statement of a
transaction: the actions it submits to the authorizer while preparing it, the
error of `Query` if it fails, the cursor it returns, and the state of the native
transaction (view and connection counters) once the cursor has been read. -/
structure QueryOutcome where
  actions : List Int
  queryErr : Option PlainError
  cursor : Cursor
  viewAfter : DbFile
  connAfter : ConnInfo
  deriving DecidableEq, Repr

/-- Modelled from the spec: the behaviour of the engine on caller-supplied SQL,
which the repository does not contain: `run tx statement args` is its answer to a
statement of a native transaction, `pool ptr` the counters of the pooled
connection it binds the native transaction `ptr` to. -/
structure Engine where
  run : Tx → String → List Cell → QueryOutcome
  pool : Nat → ConnInfo

/-- Go `BeginTransaction`. The idle timer armed at the end is the step
`idleTimerExpiry` below. -/
def BeginTransaction (engine : Engine) (s : State) (dbId : Nat) : Except GoError Nat × State :=
  match mapGet s.databases dbId with
  | none => (.error (.sqlError WEBSQL_UNKNOWN_ERR dbNotFound none), s)
  | some db =>
    -- beginHook: its error is only logged
    let s1 := if s.beginHook then (popFault s).2 else s
    match popFault s1 with
    | (some err, s2) => (.error (.sqlError WEBSQL_UNKNOWN_ERR err.Error none), s2)
    | (none, s2) =>
      let tx : Tx :=
        { ptr := s2.nextPtr, path := db.path, view := fileOf s2 db.path,
          conn := engine.pool s2.nextPtr }
      let txWrapper : TxWrapper := { tx := tx, db := db, isLastActionInsert := false }
      let txId := addUint32 s2.nextId 1
      (.ok txId, { s2 with nextPtr := s2.nextPtr + 1, nextId := txId,
                            transactions := mapSet s2.transactions txId txWrapper })

/-- The callback given to `time.AfterFunc` in `BeginTransaction` (websql.go, lines
283-295), run for the identifier `txId` and the native transaction `tx` it captured. -/
def idleTimerExpiry (s : State) (txId : Nat) (tx : Nat) : State :=
  let ok := (mapGet s.transactions txId).isSome
  let s1 := { s with transactions := mapDelete s.transactions txId }
  if ok then (txRollback s1 tx).2 else s1

/-- The authorizer registered in `BeginTransaction` (websql.go, lines 267-275),
run on one action: it records an INSERT in the flag. -/
def authorizer (flag : Bool) (action : Int) : Bool :=
  if action = SQLITE_INSERT then true else flag

/-- Go `Exec`: returns `(lastInsertRowId, rowsAffected, rows)` or the error. -/
def Exec (engine : Engine) (s : State) (txId : Nat) (statement : String) (args : List Cell) :
    Except GoError (Int × Int × List Record) × State :=
  match mapGet s.transactions txId with
  | none => (.error (.sqlError WEBSQL_UNKNOWN_ERR txMissing none), s)
  | some tx =>
    let totalChanges1 := tx.tx.conn.totalChanges
    let o := engine.run tx.tx statement args
    let flag := o.actions.foldl authorizer false
    match o.queryErr with
    | some err =>
      (.error (.sqlError WEBSQL_SYNTAX_ERR err.Error (some err)),
        { s with transactions := mapSet s.transactions txId { tx with isLastActionInsert := flag } })
    | none =>
      let tx1 : TxWrapper :=
        { tx with isLastActionInsert := flag,
                  tx := { tx.tx with view := o.viewAfter, conn := o.connAfter } }
      let s1 := { s with transactions := mapSet s.transactions txId tx1 }
      match buildStruct o.cursor with
      | (_, some err) => (.error (.plain err), s1)
      | (data, none) =>
        let totalChanges2 := o.connAfter.totalChanges
        let lastInsertRowId := if !flag then -1 else o.connAfter.lastInsertRowId
        (.ok (lastInsertRowId, subInt64 totalChanges2 totalChanges1, data), s1)

/-- Go `ChangeDbVersion`. -/
def ChangeDbVersion (s : State) (txId : Nat) (oldVer newVer : String) : Option GoError × State :=
  match mapGet s.transactions txId with
  | none => (some (.sqlError WEBSQL_UNKNOWN_ERR txMissing none), s)
  | some tx =>
    match getDatabaseVersionByTx s tx.tx with
    | (.error _, s1) => (some (.sqlError WEBSQL_UNKNOWN_ERR txMissing none), s1)
    | (.ok ver, s1) =>
      if ver ≠ oldVer then
        (some (.sqlError WEBSQL_VERSION_ERR
          "current version of the database and `oldVersion` argument do not match" none), s1)
      else
        match setDatabaseVersionByTx s1 tx.tx newVer with
        | (some _, s2, _) => (some (.sqlError WEBSQL_UNKNOWN_ERR txMissing none), s2)
        | (none, s2, tx1) =>
          (none, { s2 with transactions := mapSet s2.transactions txId { tx with tx := tx1 } })

/-- Go `Commit`. A successful native commit publishes the view of the
transaction to its backing file. -/
def Commit (s : State) (txId : Nat) : Option GoError × State :=
  let tx := mapGet s.transactions txId
  let s1 := { s with transactions := mapDelete s.transactions txId }
  match tx with
  | none => (some (.sqlError WEBSQL_DATABASE_ERR txMissing none), s1)
  | some tx =>
    match popFault s1 with
    | (some err, s2) =>
      (some (.sqlError WEBSQL_DATABASE_ERR err.Error (some err)), (txRollback s2 tx.tx.ptr).2)
    | (none, s2) =>
      (none, { s2 with files := mapSet s2.files tx.tx.path tx.tx.view,
                        events := s2.events ++ [EngineEvent.txCommit tx.tx.ptr] })

/-- Go `Abort`. -/
def Abort (s : State) (txId : Nat) : Option GoError × State :=
  let tx := mapGet s.transactions txId
  let s1 := { s with transactions := mapDelete s.transactions txId }
  match tx with
  | none => (some (.sqlError WEBSQL_DATABASE_ERR txMissing none), s1)
  | some tx =>
    match txRollback s1 tx.tx.ptr with
    | (some err, s2) => (some (.sqlError WEBSQL_DATABASE_ERR err.Error (some err)), s2)
    | (none, s2) => (none, s2)

/-- A terminal call on a transaction identifier: `Commit` or `Abort`. -/
inductive Terminal where
  | commit
  | abort
  deriving DecidableEq, Repr

def Terminal.run (t : Terminal) (s : State) (txId : Nat) : Option GoError × State :=
  match t with
  | .commit => Commit s txId
  | .abort => Abort s txId

/-- A sequence of terminal calls on the same identifier: the errors returned, in
order, and the final state. -/
def runTerminals (s : State) (txId : Nat) : List Terminal → List (Option GoError) × State
  | [] => ([], s)
  | t :: rest =>
    match t.run s txId with
    | (r, s1) =>
      match runTerminals s1 txId rest with
      | (rs, s2) => (r :: rs, s2)

/-- Go `Close`. -/
def Close (s : State) (dbId : Nat) : Option GoError × State :=
  let db := mapGet s.databases dbId
  let s1 := { s with databases := mapDelete s.databases dbId }
  match db with
  | none => (some (.sqlError WEBSQL_DATABASE_ERR "db missing (already closed?)" none), s1)
  | some db => (none, dbClose s1 db)

/-- Go `closeConnectionsLocked`. -/
def closeConnectionsLocked (s : State) : State :=
  let s1 := s.transactions.foldl (fun st p => (txRollback st p.2.tx.ptr).2) s
  let s2 := { s1 with transactions := [] }
  let s3 := s2.databases.foldl (fun st p => dbClose st p.2) s2
  { s3 with databases := [] }

/-- Go `CloseAllConnections`. -/
def CloseAllConnections (s : State) : State := closeConnectionsLocked s

/-- Whether `path` names an entry of directory `dir` whose name ends in ".db". -/
def isDbFileIn (dir path : String) : Bool :=
  (dir ++ "/").data.isPrefixOf path.data &&
    !((path.data.drop (dir ++ "/").data.length).contains '/') &&
    ".db".data.isSuffixOf path.data

/-- Go `DeleteAllDatabases`: `ioutil.ReadDir(dbDir)` fails for the empty directory
name (and whenever the engine model schedules a failure); each `os.Remove` may fail. -/
def DeleteAllDatabases (s : State) : State :=
  let s1 := closeConnectionsLocked s
  match popFault s1 with
  | (some _, s2) => s2
  | (none, s2) =>
    if s2.dbDir = "" then s2
    else
      s2.files.foldl (fun st p =>
        if isDbFileIn st.dbDir p.1 then
          match popFault st with
          | (some _, st1) => st1
          | (none, st1) => { st1 with files := mapDelete st1.files p.1 }
        else st) s2

/-! ## Wire protocol (handler.go) -/

/-- Modelled from the spec: JSON values written to the client (the encoder is a
library); a cell of a result row is kept as it is. -/
inductive Json where
  | null
  | num (n : Int)
  | str (s : String)
  | cell (c : Cell)
  | arr (items : List Json)
  | obj (fields : List (String × Json))

/-- A frame: the `map[string]interface{}` handed to `conn.WriteJSON`. -/
abbrev Frame := List (String × Json)

/-- Whether a JSON object carries the field `key`. -/
def Json.hasField (j : Json) (key : String) : Bool :=
  match j with
  | .obj fields => (mapGet fields key).isSome
  | _ => false

/-- Go `makeSuccessResp`. -/
def makeSuccessResp (data : Json) : Frame :=
  mapSet [] "data" data

/-- Go `makeErrorResp`. -/
def makeErrorResp (err : GoError) : Frame :=
  match err with
  | .sqlError code message _ =>
    mapSet [] "sqlerror" (.obj (mapSet (mapSet [] "code" (.num code)) "message" (.str message)))
  | .webKitException code name message _ =>
    mapSet [] "exception"
      (.obj (mapSet (mapSet (mapSet [] "code" (.num code)) "name" (.str name)) "message" (.str message)))
  | .plain (.sqlite3 code msg) =>
    if code = ErrFull then
      mapSet [] "sqlerror"
        (.obj (mapSet (mapSet [] "code" (.num WEBSQL_QUOTA_ERR)) "message" (.str msg)))
    else
      mapSet [] "error"
        (.obj (mapSet (mapSet [] "name" (.str "UnknownError")) "message" (.str msg)))
  | .plain (.other msg) =>
    mapSet [] "error"
      (.obj (mapSet (mapSet [] "name" (.str "UnknownError")) "message" (.str msg)))

/-- The `code` of the `sqlerror` object of a frame, if the frame carries one. -/
def sqlerrorCode (f : Frame) : Option Int :=
  match mapGet f "sqlerror" with
  | some (.obj fields) =>
    match mapGet fields "code" with
    | some (.num n) => some n
    | _ => none
  | _ => none

/-- Go `errUnmarshal`. -/
def errUnmarshal : GoError :=
  .sqlError WEBSQL_UNKNOWN_ERR "internal error(invalid argument)" none

/-- Go `ExecResp`; `InsertId` is the `*int64` tagged `omitempty`. -/
structure ExecResp where
  Rows : List Record
  InsertId : Option Int
  RowsAffected : Int

/-- Modelled from the spec: JSON encoding of a record of a result row. -/
def recordJson (r : Record) : Json :=
  .obj (r.map (fun p => (p.1, Json.cell p.2)))

/-- Modelled from the spec: JSON encoding of `ExecResp` under its field tags
`rows`, `insertId,omitempty`, `rowsAffected`: a nil `InsertId` is left out. -/
def ExecResp.toJson (r : ExecResp) : Json :=
  .obj ([("rows", Json.arr (r.Rows.map recordJson))]
    ++ (match r.InsertId with
        | none => []
        | some v => [("insertId", Json.num v)])
    ++ [("rowsAffected", Json.num r.RowsAffected)])

/-- JSON encoding of the empty response structs `BeginResp`, `CommitResp`, ... -/
def emptyResp : Json := .obj []

/-- Go `TransactionMsg`. -/
structure TransactionMsg where
  Cmd : String
  Stmt : String := ""
  Args : List Cell := []
  OldVer : String := ""
  NewVer : String := ""

/-- What one turn of the loop of `transactionHandler` leaves behind: the package
state, the local `txId`, the frames written, and whether the loop goes on. -/
structure Turn where
  state : State
  txId : Nat
  frames : List Frame
  running : Bool

/-- The exec case of `transactionHandler` once `txId` and the statement are
checked (handler.go, lines 144-162). -/
def execCase (engine : Engine) (s : State) (txId : Nat) (msg : TransactionMsg) : Turn :=
  match Exec engine s txId msg.Stmt msg.Args with
  | (.error err, s1) => { state := s1, txId := txId, frames := [makeErrorResp err], running := true }
  | (.ok (lastInsertRowId, rowsAffected, rows), s1) =>
    let resp : ExecResp := { Rows := rows, InsertId := none, RowsAffected := rowsAffected }
    let resp := if lastInsertRowId ≥ 0 then { resp with InsertId := some lastInsertRowId } else resp
    { state := s1, txId := txId, frames := [makeSuccessResp resp.toJson], running := true }

/-- One turn of the loop of Go `transactionHandler` for the database `dbId` of the
URL and the current `txId`; `msg = none` is a failed `ReadJSON` (peer gone). -/
def transactionTurn (engine : Engine) (s : State) (dbId txId : Nat)
    (msg : Option TransactionMsg) : Turn :=
  match msg with
  | none =>
    if txId ≠ 0 then { state := (Abort s txId).2, txId := txId, frames := [], running := false }
    else { state := s, txId := txId, frames := [], running := false }
  | some msg =>
    if msg.Cmd = "begin" then
      let s1 := if txId ≠ 0 then (Abort s txId).2 else s
      match BeginTransaction engine s1 dbId with
      | (.error err, s2) => { state := s2, txId := 0, frames := [makeErrorResp err], running := false }
      | (.ok newId, s2) =>
        { state := s2, txId := newId, frames := [makeSuccessResp emptyResp], running := true }
    else if msg.Cmd = "exec" then
      if txId = 0 then
        { state := s, txId := txId, running := true,
          frames := [makeErrorResp (.plain (.other "exec called but tx is nil"))] }
      else if msg.Stmt = "" then
        { state := s, txId := txId, frames := [makeErrorResp errUnmarshal], running := true }
      else execCase engine s txId msg
    else if msg.Cmd = "commit" then
      if txId = 0 then
        { state := s, txId := txId, running := true,
          frames := [makeErrorResp (.plain (.other "commit called but tx is nil"))] }
      else
        match Commit s txId with
        | (some err, s1) => { state := s1, txId := 0, frames := [makeErrorResp err], running := true }
        | (none, s1) => { state := s1, txId := 0, frames := [makeSuccessResp emptyResp], running := true }
    else if msg.Cmd = "abort" then
      if txId = 0 then
        { state := s, txId := txId, running := true,
          frames := [makeErrorResp (.plain (.other "abort called but tx is nil"))] }
      else
        match Abort s txId with
        | (some err, s1) => { state := s1, txId := 0, frames := [makeErrorResp err], running := true }
        | (none, s1) => { state := s1, txId := 0, frames := [makeSuccessResp emptyResp], running := true }
    else if msg.Cmd = "changeVersion" then
      if txId = 0 then
        { state := s, txId := txId, running := true,
          frames := [makeErrorResp (.plain (.other "changeVersion called but tx is nil"))] }
      else
        match ChangeDbVersion s txId msg.OldVer msg.NewVer with
        | (some err, s1) => { state := s1, txId := txId, frames := [makeErrorResp err], running := true }
        | (none, s1) => { state := s1, txId := txId, frames := [makeSuccessResp emptyResp], running := true }
    else { state := s, txId := txId, frames := [], running := true }

/-! ## Runs of the package -/

/-- State at the start of a run: empty registries, counter zero, the configured
DB directory and begin hook, the files already on disk, and the failures the
engine will produce during the run. -/
def State.start (dbDir : String) (beginHook : Bool) (files : List (String × DbFile))
    (faults : List (Nat × PlainError)) : State :=
  { databases := [], transactions := [], nextId := 0, dbDir := dbDir, beginHook := beginHook,
    files := files, faults := faults, nextPtr := 0, events := [] }

/-- The calls that drive the package. -/
inductive Op where
  | Open (name version : String) (hasCreationCallback : Bool)
  | Close (dbId : Nat)
  | BeginTransaction (dbId : Nat)
  | Exec (txId : Nat) (statement : String) (args : List Cell)
  | ChangeDbVersion (txId : Nat) (oldVer newVer : String)
  | Commit (txId : Nat)
  | Abort (txId : Nat)
  | DatabaseVersion (dbId : Nat)
  | idleTimerExpiry (txId : Nat) (tx : Nat)
  | CloseAllConnections
  | DeleteAllDatabases
  deriving DecidableEq, Repr

/-- One call: the identifier it returned, if it is a successful `Open` or
`BeginTransaction`, and the state it leaves. -/
def step (engine : Engine) (s : State) : Op → Option Nat × State
  | .Open name version hasCreationCallback =>
    match Open s name version hasCreationCallback with
    | (.ok (dbId, _), s1) => (some dbId, s1)
    | (.error _, s1) => (none, s1)
  | .Close dbId => (none, (Close s dbId).2)
  | .BeginTransaction dbId =>
    match BeginTransaction engine s dbId with
    | (.ok txId, s1) => (some txId, s1)
    | (.error _, s1) => (none, s1)
  | .Exec txId statement args => (none, (Exec engine s txId statement args).2)
  | .ChangeDbVersion txId oldVer newVer => (none, (ChangeDbVersion s txId oldVer newVer).2)
  | .Commit txId => (none, (Commit s txId).2)
  | .Abort txId => (none, (Abort s txId).2)
  | .DatabaseVersion dbId => (none, (DatabaseVersion s dbId).2)
  | .idleTimerExpiry txId tx => (none, idleTimerExpiry s txId tx)
  | .CloseAllConnections => (none, CloseAllConnections s)
  | .DeleteAllDatabases => (none, DeleteAllDatabases s)

/-- A run: the identifiers returned by its successful `Open` and
`BeginTransaction` calls, in order, and the final state. -/
def run (engine : Engine) (s : State) : List Op → List Nat × State
  | [] => ([], s)
  | op :: rest =>
    match step engine s op with
    | (none, s1) => run engine s1 rest
    | (some id, s1) =>
      match run engine s1 rest with
      | (ids, s2) => (id :: ids, s2)

/-- Every registered transaction has a database handle that is registered. -/
def txDbLive (s : State) : Bool :=
  s.transactions.all (fun p => s.databases.any (fun q => decide (q.2 = p.2.db)))

/-- A call respects the close discipline when it is not a `Close` of a database
on whose handle a transaction is still registered. -/
def closeIsSafe (s : State) : Op → Bool
  | .Close dbId =>
    match mapGet s.databases dbId with
    | none => true
    | some db => s.transactions.all (fun p => decide (p.2.db ≠ db))
  | _ => true

/-- Whether every call of a run respects the close discipline in the state it is made in. -/
def disciplined (engine : Engine) (s : State) : List Op → Bool
  | [] => true
  | op :: rest => closeIsSafe s op && disciplined engine (step engine s op).2 rest

/-- What a call of `Open` from state `s` does to the registries: either it fails
and leaves them and the counter alone, or it returns the next identifier and
registers a handle under it. -/
def OpenEffect (s : State) (r : Except GoError (Nat × Bool) × State) : Prop :=
  r.2.transactions = s.transactions ∧
    ((∃ e, r.1 = .error e ∧ r.2.nextId = s.nextId ∧ r.2.databases = s.databases) ∨
     (∃ created db, r.1 = .ok (addUint32 s.nextId 1, created) ∧
        r.2.nextId = addUint32 s.nextId 1 ∧
        r.2.databases = mapSet s.databases (addUint32 s.nextId 1) db))

/-- What one call does to the registries and the counter, together with the
identifier it returns: nothing; remove a transaction; update a registered
transaction without touching its database handle; empty both registries; remove
a database; register a database under the next identifier; register, under the
next identifier, a transaction on a registered database handle. -/
inductive StepEffect (s : State) : Op → Option Nat → State → Prop where
  | same (op : Op) (t : State) (hd : t.databases = s.databases)
      (ht : t.transactions = s.transactions) (hn : t.nextId = s.nextId) :
      StepEffect s op none t
  | removed (op : Op) (t : State) (txId : Nat) (hd : t.databases = s.databases)
      (ht : t.transactions = mapDelete s.transactions txId) (hn : t.nextId = s.nextId) :
      StepEffect s op none t
  | updated (op : Op) (t : State) (txId : Nat) (w v : TxWrapper)
      (hw : mapGet s.transactions txId = some w) (hv : v.db = w.db)
      (hd : t.databases = s.databases)
      (ht : t.transactions = mapSet s.transactions txId v) (hn : t.nextId = s.nextId) :
      StepEffect s op none t
  | emptied (op : Op) (t : State) (hd : t.databases = [])
      (ht : t.transactions = []) (hn : t.nextId = s.nextId) :
      StepEffect s op none t
  | closed (t : State) (dbId : Nat) (hd : t.databases = mapDelete s.databases dbId)
      (ht : t.transactions = s.transactions) (hn : t.nextId = s.nextId) :
      StepEffect s (.Close dbId) none t
  | opened (op : Op) (t : State) (db : DB)
      (hd : t.databases = mapSet s.databases (addUint32 s.nextId 1) db)
      (ht : t.transactions = s.transactions) (hn : t.nextId = addUint32 s.nextId 1) :
      StepEffect s op (some (addUint32 s.nextId 1)) t
  | begun (op : Op) (t : State) (dbId : Nat) (w : TxWrapper)
      (hw : mapGet s.databases dbId = some w.db) (hd : t.databases = s.databases)
      (ht : t.transactions = mapSet s.transactions (addUint32 s.nextId 1) w)
      (hn : t.nextId = addUint32 s.nextId 1) :
      StepEffect s op (some (addUint32 s.nextId 1)) t

/-- Modelled from the spec: the version `getVersion` reads from a database file. -/
def storedVersion (f : DbFile) : Except PlainError String :=
  versionOfQuery (infoCursor f)

/-- Invariant of runs that respect the close discipline and stay below `2^32`
allocations: every registered transaction has a registered database handle, the
database registry has one entry per key, and no key exceeds the counter. -/
def RegistryInv (s : State) : Prop :=
  txDbLive s = true ∧ (s.databases.map Prod.fst).Nodup ∧ ∀ q ∈ s.databases, q.1 ≤ s.nextId

/-- The two states differ at most in the failures still scheduled. -/
def FaultsOnly (s t : State) : Prop := ∃ fs, t = { s with faults := fs }

/-- The package globals an engine call never touches. -/
def regs (s : State) : List (Nat × DB) × List (Nat × TxWrapper) × Nat :=
  (s.databases, s.transactions, s.nextId)

/-! ## Critical sections of `Commit` and `Abort` -/

/-- The locked section shared by `Commit` and `Abort` (websql.go, lines 395-398
and 421-424): look the entry up and delete it from the registry. -/
def detach (s : State) (txId : Nat) : Option TxWrapper × State :=
  (mapGet s.transactions txId, { s with transactions := mapDelete s.transactions txId })

/-- What `Commit` does after its locked section (websql.go, lines 399-417). -/
def commitNative (r : Option TxWrapper × State) : Option GoError × State :=
  match r with
  | (none, s1) => (some (.sqlError WEBSQL_DATABASE_ERR txMissing none), s1)
  | (some tx, s1) =>
    match popFault s1 with
    | (some err, s2) =>
      (some (.sqlError WEBSQL_DATABASE_ERR err.Error (some err)), (txRollback s2 tx.tx.ptr).2)
    | (none, s2) =>
      (none, { s2 with files := mapSet s2.files tx.tx.path tx.tx.view,
                        events := s2.events ++ [EngineEvent.txCommit tx.tx.ptr] })

/-- What `Abort` does after its locked section (websql.go, lines 425-442). -/
def abortNative (r : Option TxWrapper × State) : Option GoError × State :=
  match r with
  | (none, s1) => (some (.sqlError WEBSQL_DATABASE_ERR txMissing none), s1)
  | (some tx, s1) =>
    match txRollback s1 tx.tx.ptr with
    | (some err, s2) => (some (.sqlError WEBSQL_DATABASE_ERR err.Error (some err)), s2)
    | (none, s2) => (none, s2)

/-- A begin frame. -/
def beginMsg : TransactionMsg := { Cmd := "begin" }

/-! ## Sample inputs -/

/-- An engine that answers every statement as a single-row INSERT would be
answered: one INSERT action, no rows, rowid 7, one more change. -/
def insertingEngine : Engine :=
  { run := fun tx _ _ =>
      { actions := [SQLITE_INSERT], queryErr := none,
        cursor := { columns := [], rows := [] },
        viewAfter := tx.view,
        connAfter := { lastInsertRowId := 7, totalChanges := tx.conn.totalChanges + 1 } },
    pool := fun _ => { lastInsertRowId := 0, totalChanges := 0 } }

/-- A transaction wrapper on the file "a.db" whose metadata table holds version "1". -/
def sampleTx : TxWrapper :=
  { tx := { ptr := 1, path := "a.db", view := { info := some [(0, Cell.text "1")] },
            conn := { lastInsertRowId := 0, totalChanges := 3 } },
    db := { ptr := 0, path := "a.db" },
    isLastActionInsert := false }

/-- A state with one open database (`dbId = 1`) and one live transaction (`txId = 2`). -/
def sampleState : State :=
  { databases := [(1, { ptr := 0, path := "a.db" })],
    transactions := [(2, sampleTx)],
    nextId := 2, dbDir := "", beginHook := false,
    files := [("a.db", { info := some [(0, Cell.text "1")] })],
    faults := [], nextPtr := 2, events := [] }

/-- An engine that answers every statement as an INSERT of a row whose rowid is
`-5` would be answered (SQLite rowids are signed). -/
def negativeRowidEngine : Engine :=
  { run := fun tx _ _ =>
      { actions := [SQLITE_INSERT], queryErr := none,
        cursor := { columns := [], rows := [] },
        viewAfter := tx.view,
        connAfter := { lastInsertRowId := -5, totalChanges := tx.conn.totalChanges + 1 } },
    pool := fun _ => { lastInsertRowId := 0, totalChanges := 0 } }

/-- An exec frame carrying an INSERT statement. -/
def insertMsg : TransactionMsg :=
  { Cmd := "exec", Stmt := "INSERT INTO mytable (id, name) VALUES (?, ?)",
    Args := [Cell.integer 7, Cell.text "hello"] }

/-- A run start on a DB directory that already holds the database "mydb" with
stored version "1". -/
def versionedState : State :=
  State.start "" false [("mydb_6d796462.db", { info := some [(0, Cell.text "1")] })] []

/-- The engine error "database or disk is full". -/
def databaseFull : PlainError := .sqlite3 ErrFull "database or disk is full"

/-- An engine whose `Query` call fails with "database full". -/
def fullAtQueryEngine : Engine :=
  { run := fun tx _ _ =>
      { actions := [SQLITE_INSERT], queryErr := some databaseFull,
        cursor := { columns := [], rows := [] },
        viewAfter := tx.view, connAfter := tx.conn },
    pool := fun _ => { lastInsertRowId := 0, totalChanges := 0 } }

/-- An engine whose `Query` call succeeds and whose cursor reports "database
full" in `Err()` once it has been read. -/
def fullAtRowsEngine : Engine :=
  { run := fun tx _ _ =>
      { actions := [SQLITE_INSERT], queryErr := none,
        cursor := { columns := [], rows := [], err := some databaseFull },
        viewAfter := tx.view, connAfter := tx.conn },
    pool := fun _ => { lastInsertRowId := 0, totalChanges := 0 } }

/-- A cursor that declares two columns with the same name. -/
def duplicateColumnsCursor : Cursor :=
  { columns := ["id", "id"], rows := [{ cells := [Cell.integer 1, Cell.integer 2] }] }

/-- A cursor with one row whose `Scan` fails while `Columns()` and `Err()` report nothing. -/
def scanFailureCursor : Cursor :=
  { columns := ["id"],
    rows := [{ cells := [], scanErr := some (PlainError.other "sql: Scan error") }] }

/-- A cursor with two rows of two distinctly named columns. -/
def twoRowsCursor : Cursor :=
  { columns := ["id", "name"],
    rows := [{ cells := [Cell.integer 0, Cell.text "hello"] },
             { cells := [Cell.integer 1, Cell.text "hello2"] }] }

/-- An engine that answers every statement as
`INSERT INTO __pro_database_info (id, version) VALUES (-1, 'x')` would be answered:
the metadata table of the transaction gains the row `(-1, "x")`. -/
def metadataInsertEngine : Engine :=
  { run := fun tx _ _ =>
      { actions := [SQLITE_INSERT], queryErr := none,
        cursor := { columns := [], rows := [] },
        viewAfter := { info := tx.view.info.map (insertRow (-1, Cell.text "x")) },
        connAfter := { lastInsertRowId := -1, totalChanges := tx.conn.totalChanges + 1 } },
    pool := fun _ => { lastInsertRowId := 0, totalChanges := 0 } }

/-- The state reached from a fresh start by `Open("mydb", "1", false)` (`dbId = 1`),
`BeginTransaction(1)` (`txId = 2`) and an `Exec` that inserts the row `(-1, "x")`
into the metadata table. -/
def negativeRowState : State :=
  (Exec metadataInsertEngine
    (BeginTransaction metadataInsertEngine
      (Open (State.start "" false [] []) "mydb" "1" false).2 1).2
    2 "INSERT INTO __pro_database_info (id, version) VALUES (-1, 'x')" []).2

/-! ## Lemmas on maps and engine calls -/

theorem mapDelete_cons {κ α : Type} [DecidableEq κ] (p : κ × α) (rest : List (κ × α)) (k : κ) :
    mapDelete (p :: rest) k = if p.1 = k then mapDelete rest k else p :: mapDelete rest k := by
  by_cases h : p.1 = k <;> simp [mapDelete, List.filter_cons, h]

theorem mapGet_cons {κ α : Type} [DecidableEq κ] (p : κ × α) (rest : List (κ × α)) (k : κ) :
    mapGet (p :: rest) k = if p.1 = k then some p.2 else mapGet rest k := rfl

theorem mapGet_mapDelete_self {κ α : Type} [DecidableEq κ] (m : List (κ × α)) (k : κ) :
    mapGet (mapDelete m k) k = none := by
  induction m with
  | nil => rfl
  | cons p rest ih =>
    rw [mapDelete_cons]
    by_cases h : p.1 = k
    · simpa [h] using ih
    · simpa [h, mapGet_cons] using ih

theorem mapGet_mapDelete_ne {κ α : Type} [DecidableEq κ] (m : List (κ × α)) {k j : κ}
    (hne : k ≠ j) : mapGet (mapDelete m k) j = mapGet m j := by
  induction m with
  | nil => rfl
  | cons p rest ih =>
    rw [mapDelete_cons]
    by_cases h : p.1 = k
    · have hj : p.1 ≠ j := fun e => hne (h.symm.trans e)
      simpa [h, hj, hne, mapGet_cons] using ih
    · rw [if_neg h]
      by_cases hj : p.1 = j
      · simp [hj, mapGet_cons]
      · simpa [hj, mapGet_cons] using ih

theorem mapDelete_of_mapGet_none {κ α : Type} [DecidableEq κ] (m : List (κ × α)) (k : κ)
    (h : mapGet m k = none) : mapDelete m k = m := by
  induction m with
  | nil => rfl
  | cons p rest ih =>
    rw [mapDelete_cons]
    by_cases hk : p.1 = k
    · simp [mapGet_cons, hk] at h
    · simp only [mapGet_cons, hk, if_false] at h
      simp [hk, ih h]

theorem mapGet_mapSet_self {κ α : Type} [DecidableEq κ] (m : List (κ × α)) (k : κ) (v : α) :
    mapGet (mapSet m k v) k = some v := by
  simp [mapSet, mapGet]

theorem mapGet_mapSet_ne {κ α : Type} [DecidableEq κ] (m : List (κ × α)) {k j : κ} (v : α)
    (hne : k ≠ j) : mapGet (mapSet m k v) j = mapGet m j := by
  simp [mapSet, mapGet, hne, mapGet_mapDelete_ne m hne]

theorem authorizer_foldl_true (actions : List Int) :
    actions.foldl authorizer true = true := by
  induction actions with
  | nil => rfl
  | cons a rest ih => simp [List.foldl, authorizer, ih]

/-- The flag left by the authorizer is set exactly when an INSERT action fired. -/
theorem authorizer_foldl (actions : List Int) :
    actions.foldl authorizer false = decide (SQLITE_INSERT ∈ actions) := by
  induction actions with
  | nil => rfl
  | cons a rest ih =>
    by_cases h : a = SQLITE_INSERT
    · simp [List.foldl, authorizer, h, authorizer_foldl_true]
    · have h2 : ¬ SQLITE_INSERT = a := fun e => h e.symm
      simp [List.foldl, authorizer, h, h2, ih]

theorem subInt64_of_counters {c0 c1 : Int} (h0 : 0 ≤ c0) (h0b : c0 < 2 ^ 63)
    (h1 : 0 ≤ c1) (h1b : c1 < 2 ^ 63) : subInt64 c1 c0 = c1 - c0 := by
  unfold subInt64 wrapInt64
  have h : (c1 - c0 + 2 ^ 63) % 2 ^ 64 = c1 - c0 + 2 ^ 63 :=
    Int.emod_eq_of_lt (by linarith) (by linarith)
  rw [h]; ring

/-! ## Claims -/

/-- C1: for a live `txId` and a statement for which the engine query and the row
marshalling succeed, `Exec` returns `rowsAffected = C1 - C0` (total-changes counter
after minus before, both counter readings being non-negative `int64` values) and
`lastInsertRowId = L` if the authorizer saw an INSERT action during the statement,
`-1` otherwise. -/
theorem Exec_rowsAffected_lastInsertRowId (engine : Engine) (s : State) (txId : Nat)
    (statement : String) (args : List Cell) (tx : TxWrapper)
    (hlive : mapGet s.transactions txId = some tx)
    (hquery : (engine.run tx.tx statement args).queryErr = none)
    (hrows : (buildStruct (engine.run tx.tx statement args).cursor).2 = none)
    (hC0 : 0 ≤ tx.tx.conn.totalChanges ∧ tx.tx.conn.totalChanges < 2 ^ 63)
    (hC1 : 0 ≤ (engine.run tx.tx statement args).connAfter.totalChanges ∧
      (engine.run tx.tx statement args).connAfter.totalChanges < 2 ^ 63) :
    (Exec engine s txId statement args).1 =
      .ok (if SQLITE_INSERT ∈ (engine.run tx.tx statement args).actions
             then (engine.run tx.tx statement args).connAfter.lastInsertRowId else -1,
           (engine.run tx.tx statement args).connAfter.totalChanges - tx.tx.conn.totalChanges,
           (buildStruct (engine.run tx.tx statement args).cursor).1) := by
  have hsub := subInt64_of_counters hC0.1 hC0.2 hC1.1 hC1.2
  unfold Exec
  simp only [hlive, hquery]
  rcases hb : buildStruct (engine.run tx.tx statement args).cursor with ⟨data, e⟩
  rw [hb] at hrows
  simp only at hrows
  subst hrows
  simp only [authorizer_foldl, hsub]
  by_cases hin : SQLITE_INSERT ∈ (engine.run tx.tx statement args).actions <;> simp [hin]

theorem Exec_rowsAffected_lastInsertRowId_witness :
    (Exec insertingEngine sampleState 2 "INSERT INTO mytable (id, name) VALUES (?, ?)"
        [Cell.integer 7, Cell.text "hello"]).1 =
      .ok (if SQLITE_INSERT ∈ (insertingEngine.run sampleTx.tx
                "INSERT INTO mytable (id, name) VALUES (?, ?)"
                [Cell.integer 7, Cell.text "hello"]).actions
             then (insertingEngine.run sampleTx.tx
                "INSERT INTO mytable (id, name) VALUES (?, ?)"
                [Cell.integer 7, Cell.text "hello"]).connAfter.lastInsertRowId else -1,
           (insertingEngine.run sampleTx.tx "INSERT INTO mytable (id, name) VALUES (?, ?)"
                [Cell.integer 7, Cell.text "hello"]).connAfter.totalChanges
              - sampleTx.tx.conn.totalChanges,
           (buildStruct (insertingEngine.run sampleTx.tx
                "INSERT INTO mytable (id, name) VALUES (?, ?)"
                [Cell.integer 7, Cell.text "hello"]).cursor).1) :=
  Exec_rowsAffected_lastInsertRowId insertingEngine sampleState 2 _ _ sampleTx
    (by decide) (by decide) (by decide) (by decide) (by decide)

theorem makeErrorResp_ne_makeSuccessResp (err : GoError) (payload : Json) :
    [makeErrorResp err] ≠ [makeSuccessResp payload] := by
  intro h
  rcases err with ⟨code, message, e⟩ | ⟨code, name, message, e⟩ | ⟨code, msg⟩ | msg
  · simp [makeErrorResp, makeSuccessResp, mapSet, mapDelete] at h
  · simp [makeErrorResp, makeSuccessResp, mapSet, mapDelete] at h
  · by_cases hc : code = ErrFull <;>
      simp [makeErrorResp, makeSuccessResp, mapSet, mapDelete, hc] at h
  · simp [makeErrorResp, makeSuccessResp, mapSet, mapDelete] at h

theorem ExecResp_toJson_hasField_insertId (r : ExecResp) :
    r.toJson.hasField "insertId" = r.InsertId.isSome := by
  rcases r with ⟨rows, _ | v, n⟩ <;>
    simp [ExecResp.toJson, Json.hasField, mapGet_cons, mapGet]

/-- C2 (as stated, refuted): an exec whose statement fired an INSERT action and
left the last-insert-rowid `-5` is answered with a success frame whose payload
has no field `insertId`. -/
theorem insertId_omitted_for_negative_rowid :
    (transactionTurn negativeRowidEngine sampleState 1 2 (some insertMsg)).frames.map
        (fun f => (mapGet f "data").map (fun d => d.hasField "insertId")) = [some false]
      ∧ decide (SQLITE_INSERT ∈
          (negativeRowidEngine.run sampleTx.tx insertMsg.Stmt insertMsg.Args).actions) = true := by
  constructor
  · rfl
  · decide

/-- C2 (amended): when the driver answers an exec command with a success frame,
the payload carries the field `insertId` exactly when an INSERT authorizer action
fired during that exec and the last-insert-rowid read afterwards is not negative. -/
theorem insertId_present_iff (engine : Engine) (s : State) (dbId txId : Nat)
    (msg : TransactionMsg) (tx : TxWrapper) (payload : Json)
    (hcmd : msg.Cmd = "exec")
    (hlive : mapGet s.transactions txId = some tx)
    (hframe : (transactionTurn engine s dbId txId (some msg)).frames = [makeSuccessResp payload]) :
    payload.hasField "insertId" = true ↔
      (SQLITE_INSERT ∈ (engine.run tx.tx msg.Stmt msg.Args).actions ∧
        0 ≤ (engine.run tx.tx msg.Stmt msg.Args).connAfter.lastInsertRowId) := by
  have hne : ¬ ("exec" = "begin") := by decide
  unfold transactionTurn at hframe
  simp only [hcmd, hne, if_false, if_true] at hframe
  by_cases h0 : txId = 0
  · simp only [h0, if_true] at hframe
    exact absurd hframe (makeErrorResp_ne_makeSuccessResp _ _)
  · simp only [h0, if_false] at hframe
    by_cases hs : msg.Stmt = ""
    · simp only [hs, if_true] at hframe
      exact absurd hframe (makeErrorResp_ne_makeSuccessResp _ _)
    · simp only [hs, if_false] at hframe
      unfold execCase Exec at hframe
      simp only [hlive] at hframe
      rcases hq : (engine.run tx.tx msg.Stmt msg.Args).queryErr with _ | e
      · simp only [hq] at hframe
        rcases hb : buildStruct (engine.run tx.tx msg.Stmt msg.Args).cursor with ⟨data, _ | e⟩
        · simp only [hb, authorizer_foldl] at hframe
          by_cases hin : SQLITE_INSERT ∈ (engine.run tx.tx msg.Stmt msg.Args).actions
          · by_cases hL : 0 ≤ (engine.run tx.tx msg.Stmt msg.Args).connAfter.lastInsertRowId
            · simp [hin, hL, makeSuccessResp, mapSet, mapDelete] at hframe
              subst hframe
              simp [ExecResp_toJson_hasField_insertId, hin, hL]
            · simp [hin, hL, makeSuccessResp, mapSet, mapDelete] at hframe
              subst hframe
              simp [ExecResp_toJson_hasField_insertId, hin, hL]
          · simp [hin, makeSuccessResp, mapSet, mapDelete] at hframe
            subst hframe
            simp [ExecResp_toJson_hasField_insertId, hin]
        · simp only [hb] at hframe
          exact absurd hframe (makeErrorResp_ne_makeSuccessResp _ _)
      · simp only [hq] at hframe
        exact absurd hframe (makeErrorResp_ne_makeSuccessResp _ _)

theorem insertId_present_iff_witness :
    (ExecResp.toJson { Rows := [], InsertId := some 7, RowsAffected := 1 }).hasField "insertId"
        = true ↔
      (SQLITE_INSERT ∈ (insertingEngine.run sampleTx.tx insertMsg.Stmt insertMsg.Args).actions ∧
        0 ≤ (insertingEngine.run sampleTx.tx insertMsg.Stmt insertMsg.Args).connAfter.lastInsertRowId) :=
  insertId_present_iff insertingEngine sampleState 1 2 insertMsg sampleTx
    (ExecResp.toJson { Rows := [], InsertId := some 7, RowsAffected := 1 }) rfl (by decide) rfl

/-! ### Engine calls leave the package globals alone -/

theorem popFault_eq (s : State) : ∃ fs, (popFault s).2 = { s with faults := fs } := by
  unfold popFault
  rcases hf : s.faults with _ | ⟨⟨k, e⟩, rest⟩
  · exact ⟨[], by simp [← hf]⟩
  · cases k with
    | zero => exact ⟨rest, rfl⟩
    | succ k => exact ⟨(k, e) :: rest, rfl⟩

@[simp] theorem popFault_transactions (s : State) :
    (popFault s).2.transactions = s.transactions := by
  obtain ⟨fs, h⟩ := popFault_eq s; rw [h]

@[simp] theorem popFault_databases (s : State) :
    (popFault s).2.databases = s.databases := by
  obtain ⟨fs, h⟩ := popFault_eq s; rw [h]

@[simp] theorem popFault_nextId (s : State) : (popFault s).2.nextId = s.nextId := by
  obtain ⟨fs, h⟩ := popFault_eq s; rw [h]

@[simp] theorem popFault_files (s : State) : (popFault s).2.files = s.files := by
  obtain ⟨fs, h⟩ := popFault_eq s; rw [h]

@[simp] theorem popFault_dbDir (s : State) : (popFault s).2.dbDir = s.dbDir := by
  obtain ⟨fs, h⟩ := popFault_eq s; rw [h]

@[simp] theorem popFault_nextPtr (s : State) : (popFault s).2.nextPtr = s.nextPtr := by
  obtain ⟨fs, h⟩ := popFault_eq s; rw [h]

@[simp] theorem popFault_of_no_faults (s : State) (h : s.faults = []) : popFault s = (none, s) := by
  unfold popFault; rw [h]

@[simp] theorem txRollback_transactions (s : State) (tx : Nat) :
    (txRollback s tx).2.transactions = s.transactions := by
  simp [txRollback]

@[simp] theorem txRollback_databases (s : State) (tx : Nat) :
    (txRollback s tx).2.databases = s.databases := by
  simp [txRollback]

@[simp] theorem txRollback_nextId (s : State) (tx : Nat) :
    (txRollback s tx).2.nextId = s.nextId := by
  simp [txRollback]

@[simp] theorem dbClose_transactions (s : State) (db : DB) :
    (dbClose s db).transactions = s.transactions := by
  simp [dbClose]

@[simp] theorem dbClose_databases (s : State) (db : DB) :
    (dbClose s db).databases = s.databases := by
  simp [dbClose]

@[simp] theorem dbClose_nextId (s : State) (db : DB) : (dbClose s db).nextId = s.nextId := by
  simp [dbClose]

/-! ### Terminal calls -/

theorem Commit_transactions (s : State) (txId : Nat) :
    (Commit s txId).2.transactions = mapDelete s.transactions txId := by
  unfold Commit
  rcases mapGet s.transactions txId with _ | tx
  · rfl
  · simp only
    rcases hp : popFault { s with transactions := mapDelete s.transactions txId } with ⟨_ | e, s2⟩
    · have := popFault_transactions { s with transactions := mapDelete s.transactions txId }
      rw [hp] at this
      simpa using this
    · have := popFault_transactions { s with transactions := mapDelete s.transactions txId }
      rw [hp] at this
      simpa using this

theorem Abort_transactions (s : State) (txId : Nat) :
    (Abort s txId).2.transactions = mapDelete s.transactions txId := by
  unfold Abort
  rcases mapGet s.transactions txId with _ | tx
  · rfl
  · simp only
    rcases hp : txRollback { s with transactions := mapDelete s.transactions txId } tx.tx.ptr
      with ⟨_ | e, s2⟩
    · have := txRollback_transactions { s with transactions := mapDelete s.transactions txId }
        tx.tx.ptr
      rw [hp] at this
      simpa using this
    · have := txRollback_transactions { s with transactions := mapDelete s.transactions txId }
        tx.tx.ptr
      rw [hp] at this
      simpa using this

theorem Terminal_run_transactions (t : Terminal) (s : State) (txId : Nat) :
    (t.run s txId).2.transactions = mapDelete s.transactions txId := by
  cases t
  · exact Commit_transactions s txId
  · exact Abort_transactions s txId

/-- A terminal call on an identifier that is not registered fails with
`DATABASE_ERR` "tx missing (aborted?)" and changes nothing. -/
theorem Terminal_run_missing (t : Terminal) (s : State) (txId : Nat)
    (h : mapGet s.transactions txId = none) :
    t.run s txId = (some (.sqlError WEBSQL_DATABASE_ERR txMissing none), s) := by
  have hs : ({ s with transactions := mapDelete s.transactions txId } : State) = s := by
    rw [mapDelete_of_mapGet_none _ _ h]
  cases t
  · simp only [Terminal.run, Commit, h, hs]
  · simp only [Terminal.run, Abort, h, hs]

theorem runTerminals_missing (s : State) (txId : Nat) (later : List Terminal)
    (h : mapGet s.transactions txId = none) :
    runTerminals s txId later =
      (later.map (fun _ => some (.sqlError WEBSQL_DATABASE_ERR txMissing none)), s) := by
  induction later with
  | nil => rfl
  | cons t rest ih => simp only [runTerminals, Terminal_run_missing t s txId h, ih, List.map]

/-- C3: once `Commit(txId)` or `Abort(txId)` has returned, whatever the engine
answered to the native commit or rollback, `txId` is no longer in the transaction
registry, and every later `Commit(txId)` or `Abort(txId)` fails with `SqlError`
code `DATABASE_ERR` (1) and message "tx missing (aborted?)" and leaves the state,
both registries included, unchanged. -/
theorem terminal_call_completes_transaction (s : State) (txId : Nat) (first : Terminal)
    (later : List Terminal) :
    mapGet (first.run s txId).2.transactions txId = none ∧
      WEBSQL_DATABASE_ERR = 1 ∧ txMissing = "tx missing (aborted?)" ∧
      (runTerminals (first.run s txId).2 txId later).1 =
        later.map (fun _ => some (.sqlError WEBSQL_DATABASE_ERR txMissing none)) ∧
      (runTerminals (first.run s txId).2 txId later).2.transactions =
        (first.run s txId).2.transactions ∧
      (runTerminals (first.run s txId).2 txId later).2.databases =
        (first.run s txId).2.databases ∧
      (runTerminals (first.run s txId).2 txId later).2 = (first.run s txId).2 := by
  have hgone : mapGet (first.run s txId).2.transactions txId = none := by
    rw [Terminal_run_transactions]; exact mapGet_mapDelete_self _ _
  have hrun := runTerminals_missing (first.run s txId).2 txId later hgone
  refine ⟨hgone, rfl, rfl, ?_, ?_, ?_, ?_⟩ <;> rw [hrun]

/-! ### Effect of each call on the registries and the counter -/

theorem regs_popFault (s : State) : regs (popFault s).2 = regs s := by
  simp [regs]

theorem regs_engineQuery (s : State) (c : Except PlainError Cursor) :
    regs (engineQuery s c).2 = regs s := by
  unfold engineQuery
  split
  · next e s1 h => rw [← regs_popFault s, h]
  · next s1 h =>
    have h1 : regs s1 = regs s := by rw [← regs_popFault s, h]
    split
    · exact h1
    · split
      next re s2 h2 =>
        have : regs s2 = regs s1 := by rw [← regs_popFault s1, h2]
        simpa [this] using h1

theorem regs_engineExec (s : State) (path : String) (effect : DbFile → Except PlainError DbFile) :
    regs (engineExec s path effect).2 = regs s := by
  unfold engineExec
  split
  · next e s1 h => rw [← regs_popFault s, h]
  · next s1 h =>
    have h1 : regs s1 = regs s := by rw [← regs_popFault s, h]
    split
    · exact h1
    · exact h1

theorem regs_doesDatabaseInfoExists (s : State) (db : DB) :
    regs (doesDatabaseInfoExists s db).2 = regs s := by
  unfold doesDatabaseInfoExists
  have h := regs_engineQuery s (.ok (masterCursor (fileOf s db.path)))
  split
  · next e s1 h1 => rw [h1] at h; exact h
  · next rows s1 h1 =>
    rw [h1] at h
    split <;> exact h

theorem regs_getDatabaseVersion (s : State) (db : DB) :
    regs (getDatabaseVersion s db).2 = regs s := by
  unfold getDatabaseVersion
  exact regs_engineQuery s _

theorem regs_dbClose (s : State) (db : DB) : regs (dbClose s db) = regs s := by
  simp [regs]

theorem regs_txRollback (s : State) (tx : Nat) : regs (txRollback s tx).2 = regs s := by
  simp [regs]

theorem regs_of_eq {s t : State} (h : regs t = regs s) :
    t.databases = s.databases ∧ t.transactions = s.transactions ∧ t.nextId = s.nextId := by
  simp only [regs, Prod.mk.injEq] at h
  exact h

theorem regs_snd {α : Type} {f : α × State} {a : α} {t s : State} (h : f = (a, t))
    (hr : regs f.2 = regs s) : regs t = regs s := by
  rw [h] at hr; exact hr

theorem OpenEffect_fail (s t : State) (e : GoError) (ht : regs t = regs s) :
    OpenEffect s (.error e, t) := by
  obtain ⟨h1, h2, h3⟩ := regs_of_eq ht
  exact ⟨h2, Or.inl ⟨e, rfl, h3, h1⟩⟩

theorem OpenEffect_registerDb (s t : State) (db : DB) (c : Bool) (ht : regs t = regs s) :
    OpenEffect s (registerDb t db c) := by
  obtain ⟨h1, h2, h3⟩ := regs_of_eq ht
  refine ⟨by simp [registerDb, h2], Or.inr ⟨c, db, ?_, ?_, ?_⟩⟩ <;> simp [registerDb, h1, h3]

theorem Open_effect (s : State) (name version : String) (hcc : Bool) :
    OpenEffect s (Open s name version hcc) := by
  unfold Open
  simp only
  rcases h1 : popFault s with ⟨_ | err, s1⟩
  · have r1 : regs s1 = regs s := regs_snd h1 (regs_popFault s)
    simp only
    rcases h3 : doesDatabaseInfoExists { s1 with nextPtr := s1.nextPtr + 1 }
        { ptr := s1.nextPtr, path := dbPath s.dbDir name } with ⟨_ | _ | _, s3⟩
    · exact OpenEffect_fail _ _ _
        ((regs_dbClose _ _).trans ((regs_snd h3 (regs_doesDatabaseInfoExists _ _)).trans r1))
    · have r3 : regs s3 = regs s := (regs_snd h3 (regs_doesDatabaseInfoExists _ _)).trans r1
      simp only
      have r4 : regs (popFault s3).2 = regs s := (regs_popFault s3).trans r3
      rcases h5 : createDatabaseInfo (popFault s3).2
          { ptr := s1.nextPtr, path := dbPath s.dbDir name } with ⟨_ | err, s5⟩
      · have r5 : regs s5 = regs s := (regs_snd h5 (regs_engineExec _ _ _)).trans r4
        simp only
        rcases h6 : setDatabaseVersion s5 { ptr := s1.nextPtr, path := dbPath s.dbDir name }
            (if hcc = true then "" else version) with ⟨_ | err, s6⟩
        · exact OpenEffect_registerDb _ _ _ _ ((regs_snd h6 (regs_engineExec _ _ _)).trans r5)
        · exact OpenEffect_fail _ _ _
            ((regs_dbClose _ _).trans ((regs_snd h6 (regs_engineExec _ _ _)).trans r5))
      · exact OpenEffect_fail _ _ _
          ((regs_dbClose _ _).trans ((regs_snd h5 (regs_engineExec _ _ _)).trans r4))
    · have r3 : regs s3 = regs s := (regs_snd h3 (regs_doesDatabaseInfoExists _ _)).trans r1
      simp only
      by_cases hv : version = ""
      · simp only [hv, ne_eq, not_true_eq_false, if_false]
        exact OpenEffect_registerDb _ _ _ _ r3
      · simp only [ne_eq, hv, not_false_eq_true, if_true]
        rcases h4 : getDatabaseVersion s3 { ptr := s1.nextPtr, path := dbPath s.dbDir name }
          with ⟨_ | curVer, s4⟩
        · exact OpenEffect_fail _ _ _
            ((regs_dbClose _ _).trans ((regs_snd h4 (regs_getDatabaseVersion _ _)).trans r3))
        · have r4 : regs s4 = regs s := (regs_snd h4 (regs_getDatabaseVersion _ _)).trans r3
          simp only
          by_cases hc : curVer = version
          · simp only [hc, not_true_eq_false, if_false]
            exact OpenEffect_registerDb _ _ _ _ r4
          · simp only [hc, not_false_eq_true, if_true]
            exact OpenEffect_fail _ _ _ ((regs_dbClose _ _).trans r4)
  · exact OpenEffect_fail _ _ _ (regs_snd h1 (regs_popFault s))

theorem StepEffect_of_regs (s t : State) (op : Op) (h : regs t = regs s) :
    StepEffect s op none t := by
  obtain ⟨h1, h2, h3⟩ := regs_of_eq h
  exact .same op t h1 h2 h3

theorem regs_foldl {β : Type} (f : State → β → State) (hf : ∀ st b, regs (f st b) = regs st)
    (l : List β) (s : State) : regs (l.foldl f s) = regs s := by
  induction l generalizing s with
  | nil => rfl
  | cons b rest ih => rw [List.foldl_cons, ih, hf]

theorem closeConnectionsLocked_effect (s : State) :
    (closeConnectionsLocked s).databases = [] ∧ (closeConnectionsLocked s).transactions = [] ∧
      (closeConnectionsLocked s).nextId = s.nextId := by
  unfold closeConnectionsLocked
  simp only
  have h1 := regs_foldl (fun st (p : Nat × TxWrapper) => (txRollback st p.2.tx.ptr).2)
    (fun st p => regs_txRollback st _) s.transactions s
  obtain ⟨_, _, h1n⟩ := regs_of_eq h1
  have h2 := regs_foldl (fun st (p : Nat × DB) => dbClose st p.2)
    (fun st p => regs_dbClose st _)
    (s.transactions.foldl (fun st p => (txRollback st p.2.tx.ptr).2) s).databases
    { s.transactions.foldl (fun st p => (txRollback st p.2.tx.ptr).2) s with transactions := [] }
  obtain ⟨_, h2t, h2n⟩ := regs_of_eq h2
  refine ⟨trivial, ?_, ?_⟩
  · exact h2t
  · exact h2n.trans h1n

theorem DeleteAllDatabases_effect (s : State) :
    (DeleteAllDatabases s).databases = [] ∧ (DeleteAllDatabases s).transactions = [] ∧
      (DeleteAllDatabases s).nextId = s.nextId := by
  obtain ⟨hd, ht, hn⟩ := closeConnectionsLocked_effect s
  have key : ∀ t : State, regs t = regs (closeConnectionsLocked s) →
      t.databases = [] ∧ t.transactions = [] ∧ t.nextId = s.nextId := by
    intro t h
    obtain ⟨h1, h2, h3⟩ := regs_of_eq h
    exact ⟨h1.trans hd, h2.trans ht, h3.trans hn⟩
  unfold DeleteAllDatabases
  simp only
  rcases hp : popFault (closeConnectionsLocked s) with ⟨_ | e, s2⟩
  · have r2 : regs s2 = regs (closeConnectionsLocked s) := regs_snd hp (regs_popFault _)
    simp only
    split
    · exact key _ r2
    · refine key _ (Eq.trans (regs_foldl _ ?_ _ _) r2)
      intro st p
      split
      · rcases hq : popFault st with ⟨_ | e, st1⟩
        · simp only
          exact (regs_snd hq (regs_popFault st) : regs st1 = regs st)
        · simp only
          exact (regs_snd hq (regs_popFault st) : regs st1 = regs st)
      · rfl
  · exact key _ (regs_snd hp (regs_popFault _))

theorem BeginTransaction_effect (engine : Engine) (s : State) (dbId : Nat) (op : Op) :
    StepEffect s op
      (match (BeginTransaction engine s dbId).1 with
        | .ok txId => some txId
        | .error _ => none)
      (BeginTransaction engine s dbId).2 := by
  unfold BeginTransaction
  rcases hdb : mapGet s.databases dbId with _ | db
  · exact StepEffect_of_regs _ _ _ rfl
  · simp only
    have r1 : regs (if s.beginHook = true then (popFault s).2 else s) = regs s := by
      split
      · exact regs_popFault s
      · rfl
    rcases hp : popFault (if s.beginHook = true then (popFault s).2 else s) with ⟨_ | e, s2⟩
    · have r2 : regs s2 = regs s := (regs_snd hp (regs_popFault _)).trans r1
      obtain ⟨h1, h2, h3⟩ := regs_of_eq r2
      simp only
      rw [h3, h2]
      exact .begun op _ dbId
        { tx := { ptr := s2.nextPtr, path := db.path, view := fileOf s2 db.path,
                  conn := engine.pool s2.nextPtr },
          db := db, isLastActionInsert := false } hdb h1 rfl rfl
    · exact StepEffect_of_regs _ _ _ ((regs_snd hp (regs_popFault _)).trans r1)

theorem Exec_effect (engine : Engine) (s : State) (txId : Nat) (statement : String)
    (args : List Cell) (op : Op) :
    StepEffect s op none (Exec engine s txId statement args).2 := by
  unfold Exec
  rcases hw : mapGet s.transactions txId with _ | w
  · exact StepEffect_of_regs _ _ _ rfl
  · simp only
    rcases (engine.run w.tx statement args).queryErr with _ | e
    · simp only
      rcases buildStruct (engine.run w.tx statement args).cursor with ⟨data, _ | e⟩
      · simp only
        refine .updated op _ txId w _ hw ?_ rfl rfl rfl
        rfl
      · simp only
        refine .updated op _ txId w _ hw ?_ rfl rfl rfl
        rfl
    · simp only
      refine .updated op _ txId w _ hw ?_ rfl rfl rfl
      rfl

theorem regs_getDatabaseVersionByTx (s : State) (tx : Tx) :
    regs (getDatabaseVersionByTx s tx).2 = regs s := by
  unfold getDatabaseVersionByTx
  exact regs_engineQuery s _

theorem regs_setDatabaseVersionByTx (s : State) (tx : Tx) (v : String) :
    regs (setDatabaseVersionByTx s tx v).2.1 = regs s := by
  unfold setDatabaseVersionByTx
  rcases hp : popFault s with ⟨_ | e, s1⟩
  · have r1 := regs_snd hp (regs_popFault s)
    simp only
    split <;> exact r1
  · exact regs_snd hp (regs_popFault s)

theorem ChangeDbVersion_effect (s : State) (txId : Nat) (oldVer newVer : String) (op : Op) :
    StepEffect s op none (ChangeDbVersion s txId oldVer newVer).2 := by
  unfold ChangeDbVersion
  rcases hw : mapGet s.transactions txId with _ | w
  · exact StepEffect_of_regs _ _ _ rfl
  · simp only
    rcases hg : getDatabaseVersionByTx s w.tx with ⟨_ | ver, s1⟩
    · exact StepEffect_of_regs _ _ _ (regs_snd hg (regs_getDatabaseVersionByTx _ _))
    · have r1 : regs s1 = regs s := regs_snd hg (regs_getDatabaseVersionByTx _ _)
      simp only
      split
      · exact StepEffect_of_regs _ _ _ r1
      · rcases hs : setDatabaseVersionByTx s1 w.tx newVer with ⟨_ | e, s2, tx1⟩
        · have r2 : regs s2 = regs s := by
            have := regs_setDatabaseVersionByTx s1 w.tx newVer
            rw [hs] at this
            exact this.trans r1
          obtain ⟨h1, h2, h3⟩ := regs_of_eq r2
          simp only
          rw [h2]
          refine .updated op _ txId w _ hw ?_ h1 rfl h3
          rfl
        · refine StepEffect_of_regs _ _ _ ?_
          have := regs_setDatabaseVersionByTx s1 w.tx newVer
          rw [hs] at this
          exact this.trans r1

theorem Commit_effect (s : State) (txId : Nat) (op : Op) :
    StepEffect s op none (Commit s txId).2 := by
  refine .removed op _ txId ?_ (Commit_transactions s txId) ?_
  · unfold Commit
    rcases mapGet s.transactions txId with _ | w
    · rfl
    · simp only
      rcases hp : popFault { s with transactions := mapDelete s.transactions txId } with ⟨_ | e, s2⟩
      · exact (regs_of_eq (regs_snd hp (regs_popFault _))).1
      · simp only [txRollback_databases]
        exact (regs_of_eq (regs_snd hp (regs_popFault _))).1
  · unfold Commit
    rcases mapGet s.transactions txId with _ | w
    · rfl
    · simp only
      rcases hp : popFault { s with transactions := mapDelete s.transactions txId } with ⟨_ | e, s2⟩
      · exact (regs_of_eq (regs_snd hp (regs_popFault _))).2.2
      · simp only [txRollback_nextId]
        exact (regs_of_eq (regs_snd hp (regs_popFault _))).2.2

theorem Abort_effect (s : State) (txId : Nat) (op : Op) :
    StepEffect s op none (Abort s txId).2 := by
  refine .removed op _ txId ?_ (Abort_transactions s txId) ?_
  · unfold Abort
    rcases mapGet s.transactions txId with _ | w
    · rfl
    · simp only
      rcases hp : txRollback { s with transactions := mapDelete s.transactions txId } w.tx.ptr
        with ⟨_ | e, s2⟩
      · exact (regs_of_eq (regs_snd hp (regs_txRollback _ _))).1
      · exact (regs_of_eq (regs_snd hp (regs_txRollback _ _))).1
  · unfold Abort
    rcases mapGet s.transactions txId with _ | w
    · rfl
    · simp only
      rcases hp : txRollback { s with transactions := mapDelete s.transactions txId } w.tx.ptr
        with ⟨_ | e, s2⟩
      · exact (regs_of_eq (regs_snd hp (regs_txRollback _ _))).2.2
      · exact (regs_of_eq (regs_snd hp (regs_txRollback _ _))).2.2

theorem idleTimerExpiry_effect (s : State) (txId tx : Nat) (op : Op) :
    StepEffect s op none (idleTimerExpiry s txId tx) := by
  unfold idleTimerExpiry
  simp only
  split
  · exact .removed op _ txId (by simp) (by simp) (by simp)
  · exact .removed op _ txId rfl rfl rfl

theorem Close_effect (s : State) (dbId : Nat) :
    StepEffect s (.Close dbId) none (Close s dbId).2 := by
  unfold Close
  rcases mapGet s.databases dbId with _ | db
  · exact .closed _ dbId rfl rfl rfl
  · exact .closed _ dbId (by simp) (by simp) (by simp)

theorem DatabaseVersion_effect (s : State) (dbId : Nat) (op : Op) :
    StepEffect s op none (DatabaseVersion s dbId).2 := by
  unfold DatabaseVersion
  rcases mapGet s.databases dbId with _ | db
  · exact StepEffect_of_regs _ _ _ rfl
  · simp only
    rcases hq : engineQuery s (infoCursor (fileOf s db.path)) with ⟨r, s1⟩
    have r1 : regs s1 = regs s := regs_snd hq (regs_engineQuery _ _)
    simp only
    split <;> exact StepEffect_of_regs _ _ _ r1

/-- Every call changes the registries and the counter in one of the seven ways
of `StepEffect`. -/
theorem step_effect (engine : Engine) (s : State) (op : Op) :
    StepEffect s op (step engine s op).1 (step engine s op).2 := by
  cases op with
  | Open name version hcc =>
    obtain ⟨ht, h | h⟩ := Open_effect s name version hcc
    · obtain ⟨e, h1, h2, h3⟩ := h
      rcases hO : Open s name version hcc with ⟨r, t⟩
      rw [hO] at ht h1 h2 h3
      simp only at ht h1 h2 h3
      subst h1
      simp only [step, hO]
      exact .same _ _ h3 ht h2
    · obtain ⟨c, db, h1, h2, h3⟩ := h
      rcases hO : Open s name version hcc with ⟨r, t⟩
      rw [hO] at ht h1 h2 h3
      simp only at ht h1 h2 h3
      subst h1
      simp only [step, hO]
      exact .opened _ _ db h3 ht h2
  | Close dbId => exact Close_effect s dbId
  | BeginTransaction dbId =>
    have h := BeginTransaction_effect engine s dbId (.BeginTransaction dbId)
    rcases hB : BeginTransaction engine s dbId with ⟨_ | txId, t⟩
    · rw [hB] at h; simpa [step, hB] using h
    · rw [hB] at h; simpa [step, hB] using h
  | Exec txId statement args => exact Exec_effect engine s txId statement args _
  | ChangeDbVersion txId oldVer newVer => exact ChangeDbVersion_effect s txId oldVer newVer _
  | Commit txId => exact Commit_effect s txId _
  | Abort txId => exact Abort_effect s txId _
  | DatabaseVersion dbId => exact DatabaseVersion_effect s dbId _
  | idleTimerExpiry txId tx => exact idleTimerExpiry_effect s txId tx _
  | CloseAllConnections =>
    obtain ⟨h1, h2, h3⟩ := closeConnectionsLocked_effect s
    exact .emptied _ _ h1 h2 h3
  | DeleteAllDatabases =>
    obtain ⟨h1, h2, h3⟩ := DeleteAllDatabases_effect s
    exact .emptied _ _ h1 h2 h3

/-! ### Identifier allocation -/

/-- The identifiers a run returns are consecutive modulo `2^32`, starting after
the counter of the state the run starts in. -/
theorem run_ids (engine : Engine) (ops : List Op) (s : State) :
    (run engine s ops).1 =
      (List.range (run engine s ops).1.length).map (fun i => (s.nextId + 1 + i) % 2 ^ 32) := by
  induction ops generalizing s with
  | nil => rfl
  | cons op rest ih =>
    have he := step_effect engine s op
    rcases hs : step engine s op with ⟨r, s1⟩
    rw [hs] at he
    simp only at he
    have hnone : r = none → s1.nextId = s.nextId → (run engine s (op :: rest)).1 =
        (List.range (run engine s (op :: rest)).1.length).map
          (fun i => (s.nextId + 1 + i) % 2 ^ 32) := by
      intro hr hn
      subst hr
      have : run engine s (op :: rest) = run engine s1 rest := by simp only [run, hs]
      rw [this, ← hn]
      exact ih s1
    have hsome : r = some (addUint32 s.nextId 1) → s1.nextId = addUint32 s.nextId 1 →
        (run engine s (op :: rest)).1 =
        (List.range (run engine s (op :: rest)).1.length).map
          (fun i => (s.nextId + 1 + i) % 2 ^ 32) := by
      intro hr hn
      subst hr
      have hrun : (run engine s (op :: rest)).1 =
          addUint32 s.nextId 1 :: (run engine s1 rest).1 := by simp only [run, hs]
      rw [hrun, List.length_cons, List.range_succ_eq_map, List.map_cons, List.map_map]
      congr 1
      conv_lhs => rw [ih s1]
      apply List.map_congr_left
      intro i _
      simp only [Function.comp, hn, addUint32]
      omega
    cases he with
    | same _ _ hd ht hn => exact hnone rfl hn
    | removed _ _ _ hd ht hn => exact hnone rfl hn
    | updated _ _ _ _ _ hw hv hd ht hn => exact hnone rfl hn
    | emptied _ _ hd ht hn => exact hnone rfl hn
    | closed _ _ hd ht hn => exact hnone rfl hn
    | opened _ _ db hd ht hn => exact hsome rfl hn
    | begun _ _ dbId w hw hd ht hn => exact hsome rfl hn

/-! ### Engine calls when no failure is scheduled -/

theorem engineQuery_ok_no_faults (s : State) (c : Cursor) (h : s.faults = []) (hc : c.err = none) :
    engineQuery s (.ok c) = (.ok c, s) := by
  unfold engineQuery
  simp only [popFault_of_no_faults s h]
  rcases c with ⟨ce, cols, rows, err⟩
  simp only at hc
  rw [hc]

theorem engineQuery_error_no_faults (s : State) (e : PlainError) (h : s.faults = []) :
    engineQuery s (.error e) = (.error e, s) := by
  unfold engineQuery
  rw [popFault_of_no_faults s h]

theorem buildStruct_masterCursor_length (f : DbFile) :
    buildStruct (masterCursor f) =
      ((masterCursor f).rows.map (fun r => buildRow ["name"] r.cells), none) := rfl

theorem doesDatabaseInfoExists_no_faults (s : State) (db : DB) (h : s.faults = []) :
    doesDatabaseInfoExists s db = (.ok (fileOf s db.path).info.isSome, s) := by
  unfold doesDatabaseInfoExists
  rw [engineQuery_ok_no_faults s _ h rfl]
  simp only [buildStruct, masterCursor]
  rcases hi : (fileOf s db.path).info with _ | rows
  · rfl
  · rfl

theorem infoCursor_err (f : DbFile) (c : Cursor) (h : infoCursor f = .ok c) : c.err = none := by
  unfold infoCursor at h
  split at h
  · exact absurd h (by simp)
  · simp only [Except.ok.injEq] at h
    rw [← h]

theorem getDatabaseVersion_no_faults (s : State) (db : DB) (h : s.faults = []) :
    getDatabaseVersion s db = (storedVersion (fileOf s db.path), s) := by
  unfold getDatabaseVersion storedVersion
  rcases hc : infoCursor (fileOf s db.path) with e | c
  · rw [engineQuery_error_no_faults s e h]
  · rw [engineQuery_ok_no_faults s c h (infoCursor_err _ _ hc)]

theorem engineExec_no_faults (s : State) (path : String)
    (effect : DbFile → Except PlainError DbFile) (h : s.faults = []) :
    engineExec s path effect =
      match effect (fileOf s path) with
      | .error e => (some e, s)
      | .ok f => (none, { s with files := mapSet s.files path f }) := by
  unfold engineExec
  rw [popFault_of_no_faults s h]

theorem fileOf_mapSet_self (s : State) (path : String) (f : DbFile) :
    fileOf { s with files := mapSet s.files path f } path = f := by
  simp [fileOf, mapGet_mapSet_self]

/-- With no failure scheduled, `Open` with an empty requested version succeeds,
returns the next identifier, and still has no failure scheduled afterwards. -/
theorem Open_empty_version_no_faults (s : State) (name : String) (hcc : Bool)
    (h : s.faults = []) :
    ∃ created, (Open s name "" hcc).1 = .ok (addUint32 s.nextId 1, created) ∧
      (Open s name "" hcc).2.faults = [] := by
  have h2 : ({ s with nextPtr := s.nextPtr + 1 } : State).faults = [] := h
  unfold Open
  simp only [popFault_of_no_faults s h]
  rw [doesDatabaseInfoExists_no_faults _ _ h2]
  rcases hi : (fileOf { s with nextPtr := s.nextPtr + 1 } (dbPath s.dbDir name)).info with _ | rows
  · simp only [Option.isSome_none]
    rw [popFault_of_no_faults _ h2]
    simp only [createDatabaseInfo]
    rw [engineExec_no_faults _ _ _ h2]
    simp only [hi, createInfo, setDatabaseVersion]
    rw [engineExec_no_faults]
    · simp only [fileOf, mapGet_mapSet_self, Option.getD_some, replaceInfo]
      exact ⟨true, rfl, h⟩
    · exact h
  · simp only [Option.isSome_some, ne_eq, not_true_eq_false, if_false]
    exact ⟨false, rfl, h⟩

theorem run_replicate_Open_length (engine : Engine) (name : String) (hcc : Bool) (n : Nat)
    (s : State) (h : s.faults = []) :
    (run engine s (List.replicate n (Op.Open name "" hcc))).1.length = n := by
  induction n generalizing s with
  | zero => rfl
  | succ n ih =>
    obtain ⟨created, h1, h2⟩ := Open_empty_version_no_faults s name hcc h
    rcases hO : Open s name "" hcc with ⟨r, s1⟩
    rw [hO] at h1 h2
    simp only at h1 h2
    subst h1
    simp only [List.replicate_succ, run, step, hO, List.length_cons, ih s1 h2]

/-- C5 (as stated, refuted): in the run made of `2^32` successful `Open` calls the
identifier zero is returned (by the last call, when the 32-bit counter wraps). -/
theorem zero_id_after_wraparound :
    (0 : Nat) ∈ (run insertingEngine (State.start "" false [] [])
      (List.replicate (2 ^ 32) (Op.Open "mydb" "" false))).1 := by
  have hlen := run_replicate_Open_length insertingEngine "mydb" false (2 ^ 32)
    (State.start "" false [] []) rfl
  have hids := run_ids insertingEngine (List.replicate (2 ^ 32) (Op.Open "mydb" "" false))
    (State.start "" false [] [])
  rw [hlen] at hids
  rw [hids]
  exact List.mem_map.mpr ⟨2 ^ 32 - 1, List.mem_range.mpr (by norm_num), by norm_num [State.start]⟩

/-- C5 (amended): in a run in which fewer than `2^32` `Open` and `BeginTransaction`
calls succeed, no returned `dbId` or `txId` equals zero; the `k`-th identifier
returned is `k`. -/
theorem ids_nonzero_below_wraparound (engine : Engine) (dbDir : String) (beginHook : Bool)
    (files : List (String × DbFile)) (faults : List (Nat × PlainError)) (ops : List Op)
    (hbound : (run engine (State.start dbDir beginHook files faults) ops).1.length < 2 ^ 32) :
    (run engine (State.start dbDir beginHook files faults) ops).1 =
        (List.range (run engine (State.start dbDir beginHook files faults) ops).1.length).map
          (fun i => i + 1) ∧
      ∀ id ∈ (run engine (State.start dbDir beginHook files faults) ops).1, id ≠ 0 := by
  have hids := run_ids engine ops (State.start dbDir beginHook files faults)
  have heq : (run engine (State.start dbDir beginHook files faults) ops).1 =
      (List.range (run engine (State.start dbDir beginHook files faults) ops).1.length).map
        (fun i => i + 1) := by
    conv_lhs => rw [hids]
    apply List.map_congr_left
    intro i hi
    have hi2 := List.mem_range.mp hi
    simp only [State.start]
    omega
  refine ⟨heq, ?_⟩
  intro id hid
  rw [heq] at hid
  obtain ⟨i, _, rfl⟩ := List.mem_map.mp hid
  omega

theorem ids_nonzero_below_wraparound_witness :
    (run insertingEngine (State.start "" false [] [])
        [Op.Open "mydb" "" false, Op.BeginTransaction 1, Op.Commit 2]).1 =
        (List.range (run insertingEngine (State.start "" false [] [])
          [Op.Open "mydb" "" false, Op.BeginTransaction 1, Op.Commit 2]).1.length).map
          (fun i => i + 1) ∧
      ∀ id ∈ (run insertingEngine (State.start "" false [] [])
        [Op.Open "mydb" "" false, Op.BeginTransaction 1, Op.Commit 2]).1, id ≠ 0 :=
  ids_nonzero_below_wraparound insertingEngine "" false [] []
    [Op.Open "mydb" "" false, Op.BeginTransaction 1, Op.Commit 2] (by decide)

/-! ### Transactions and their database handles -/

theorem txDbLive_iff (s : State) :
    txDbLive s = true ↔ ∀ p ∈ s.transactions, ∃ q ∈ s.databases, q.2 = p.2.db := by
  simp [txDbLive, List.all_eq_true, List.any_eq_true]

theorem mapGet_some_mem {κ α : Type} [DecidableEq κ] (m : List (κ × α)) (k : κ) (v : α)
    (h : mapGet m k = some v) : (k, v) ∈ m := by
  induction m with
  | nil => simp [mapGet] at h
  | cons p rest ih =>
    rw [mapGet_cons] at h
    by_cases hk : p.1 = k
    · simp only [hk, if_true, Option.some.injEq] at h
      have : p = (k, v) := Prod.ext hk h
      simp [this]
    · simp only [hk, if_false] at h
      exact List.mem_cons_of_mem _ (ih h)

theorem mem_mapDelete {κ α : Type} [DecidableEq κ] (m : List (κ × α)) (k : κ) (p : κ × α) :
    p ∈ mapDelete m k ↔ p ∈ m ∧ p.1 ≠ k := by
  simp [mapDelete, List.mem_filter]

theorem mapGet_of_mem_nodup {κ α : Type} [DecidableEq κ] (m : List (κ × α)) (k : κ) (v : α)
    (hn : (m.map Prod.fst).Nodup) (h : (k, v) ∈ m) : mapGet m k = some v := by
  induction m with
  | nil => simp at h
  | cons p rest ih =>
    rw [List.map_cons, List.nodup_cons] at hn
    rw [mapGet_cons]
    rcases List.mem_cons.mp h with h1 | h1
    · simp [← h1]
    · have hk : p.1 ≠ k := by
        intro e
        exact hn.1 (e ▸ List.mem_map.mpr ⟨(k, v), h1, rfl⟩)
      simp only [hk, if_false]
      exact ih hn.2 h1

theorem nodup_keys_mapDelete {κ α : Type} [DecidableEq κ] (m : List (κ × α)) (k : κ)
    (hn : (m.map Prod.fst).Nodup) : ((mapDelete m k).map Prod.fst).Nodup :=
  hn.sublist ((List.filter_sublist m).map Prod.fst)

/-- One call keeps the registry invariant, provided it respects the close
discipline and, if it allocates, the counter does not wrap. -/
theorem step_preserves (s t : State) (op : Op) (r : Option Nat) (he : StepEffect s op r t)
    (hinv : RegistryInv s) (hsafe : closeIsSafe s op = true)
    (hwrap : r ≠ none → s.nextId + 1 < 2 ^ 32) : RegistryInv t := by
  obtain ⟨hlive, hnodup, hkeys⟩ := hinv
  rw [txDbLive_iff] at hlive
  unfold RegistryInv
  rw [txDbLive_iff]
  cases he with
  | same _ _ hd ht hn => rw [hd, ht, hn]; exact ⟨hlive, hnodup, hkeys⟩
  | removed _ _ txId hd ht hn =>
    rw [hd, ht, hn]
    exact ⟨fun p hp => hlive p ((mem_mapDelete _ _ _).mp hp).1, hnodup, hkeys⟩
  | updated _ _ txId w v hw hv hd ht hn =>
    rw [hd, ht, hn]
    refine ⟨?_, hnodup, hkeys⟩
    intro p hp
    rcases List.mem_cons.mp hp with h1 | h1
    · rw [h1]
      simp only [hv]
      exact hlive (txId, w) (mapGet_some_mem _ _ _ hw)
    · exact hlive p ((mem_mapDelete _ _ _).mp h1).1
  | emptied _ _ hd ht hn => rw [hd, ht]; simp
  | closed _ dbId hd ht hn =>
    rw [hd, ht, hn]
    refine ⟨?_, nodup_keys_mapDelete _ _ hnodup, fun q hq => hkeys q ((mem_mapDelete _ _ _).mp hq).1⟩
    intro p hp
    obtain ⟨q, hq, hqp⟩ := hlive p hp
    refine ⟨q, (mem_mapDelete _ _ _).mpr ⟨hq, ?_⟩, hqp⟩
    intro hk
    have hget : mapGet s.databases dbId = some q.2 :=
      mapGet_of_mem_nodup _ _ _ hnodup (by rw [← hk]; exact hq)
    simp only [closeIsSafe, hget, List.all_eq_true, decide_eq_true_eq] at hsafe
    exact hsafe p hp hqp.symm
  | opened _ _ db hd ht hn =>
    have hid : addUint32 s.nextId 1 = s.nextId + 1 := by
      have := hwrap (by simp)
      unfold addUint32
      omega
    rw [hd, ht, hn, hid]
    have hfresh : ∀ q ∈ s.databases, q.1 ≠ s.nextId + 1 := by
      intro q hq e
      have := hkeys q hq
      omega
    have hdel : mapDelete s.databases (s.nextId + 1) = s.databases := by
      unfold mapDelete
      rw [List.filter_eq_self]
      intro q hq
      simpa using hfresh q hq
    simp only [mapSet, hdel]
    refine ⟨?_, ?_, ?_⟩
    · intro p hp
      obtain ⟨q, hq, hqp⟩ := hlive p hp
      exact ⟨q, List.mem_cons_of_mem _ hq, hqp⟩
    · rw [List.map_cons, List.nodup_cons]
      refine ⟨?_, hnodup⟩
      intro hmem
      obtain ⟨q, hq, hq1⟩ := List.mem_map.mp hmem
      exact hfresh q hq hq1
    · intro q hq
      rcases List.mem_cons.mp hq with h1 | h1
      · rw [h1]
      · have := hkeys q h1
        omega
  | begun _ _ dbId w hw hd ht hn =>
    have hid : addUint32 s.nextId 1 = s.nextId + 1 := by
      have := hwrap (by simp)
      unfold addUint32
      omega
    rw [hd, ht, hn, hid]
    refine ⟨?_, hnodup, ?_⟩
    · intro p hp
      rcases List.mem_cons.mp hp with h1 | h1
      · rw [h1]
        exact ⟨(dbId, w.db), mapGet_some_mem _ _ _ hw, rfl⟩
      · exact hlive p ((mem_mapDelete _ _ _).mp h1).1
    · intro q hq
      have := hkeys q hq
      omega

theorem run_preserves (engine : Engine) (ops : List Op) (s : State) (hinv : RegistryInv s)
    (hdisc : disciplined engine s ops = true)
    (hbound : s.nextId + (run engine s ops).1.length < 2 ^ 32) :
    RegistryInv (run engine s ops).2 := by
  induction ops generalizing s with
  | nil => exact hinv
  | cons op rest ih =>
    simp only [disciplined, Bool.and_eq_true] at hdisc
    have he := step_effect engine s op
    rcases hs : step engine s op with ⟨r, s1⟩
    rw [hs] at he hdisc
    simp only at he hdisc
    cases r with
    | none =>
      have hrun : run engine s (op :: rest) = run engine s1 rest := by simp only [run, hs]
      rw [hrun] at hbound ⊢
      have hn : s1.nextId = s.nextId := by
        cases he <;> assumption
      exact ih s1 (step_preserves s s1 op none he hinv hdisc.1 (by simp)) hdisc.2
        (by rw [hn]; exact hbound)
    | some id =>
      have hlen : (run engine s (op :: rest)).1.length = (run engine s1 rest).1.length + 1 := by
        simp only [run, hs, List.length_cons]
      have hfin : (run engine s (op :: rest)).2 = (run engine s1 rest).2 := by
        simp only [run, hs]
      rw [hlen] at hbound
      rw [hfin]
      have hn : s1.nextId = s.nextId + 1 := by
        have h1 : addUint32 s.nextId 1 = s.nextId + 1 := by unfold addUint32; omega
        cases he <;> (rw [← h1]; assumption)
      exact ih s1 (step_preserves s s1 op (some id) he hinv hdisc.1 (fun _ => by omega)) hdisc.2
        (by rw [hn]; omega)

/-- C4 (as stated, refuted): after `Open`, `BeginTransaction` on the new database
and `Close` of that database, the transaction is still registered while its
database handle is no longer in the database registry. -/
theorem transaction_outlives_closed_database :
    txDbLive (run insertingEngine (State.start "" false [] [])
      [Op.Open "mydb" "" false, Op.BeginTransaction 1, Op.Close 1]).2 = false := by
  decide

/-- C4 (amended): in every state reached by a sequence of `Open`, `Close`,
`BeginTransaction`, `Exec`, `ChangeDbVersion`, `Commit`, `Abort`, `DatabaseVersion`,
idle-timer expiry, `CloseAllConnections` and `DeleteAllDatabases` calls in which
`Close` is never called on a database whose handle still has a registered
transaction and fewer than `2^32` identifiers are allocated, every registered
`txId` has a database handle that is present in the database registry. -/
theorem txDbLive_of_disciplined_run (engine : Engine) (dbDir : String) (beginHook : Bool)
    (files : List (String × DbFile)) (faults : List (Nat × PlainError)) (ops : List Op)
    (hdisc : disciplined engine (State.start dbDir beginHook files faults) ops = true)
    (hbound : (run engine (State.start dbDir beginHook files faults) ops).1.length < 2 ^ 32) :
    txDbLive (run engine (State.start dbDir beginHook files faults) ops).2 = true := by
  have hinit : RegistryInv (State.start dbDir beginHook files faults) := by
    refine ⟨rfl, ?_, ?_⟩ <;> simp [State.start]
  exact (run_preserves engine ops _ hinit hdisc (by simpa [State.start] using hbound)).1

theorem txDbLive_of_disciplined_run_witness :
    txDbLive (run insertingEngine (State.start "" false [] [])
      [Op.Open "mydb" "" false, Op.BeginTransaction 1, Op.Commit 2, Op.Close 1]).2 = true :=
  txDbLive_of_disciplined_run insertingEngine "" false [] []
    [Op.Open "mydb" "" false, Op.BeginTransaction 1, Op.Commit 2, Op.Close 1]
    (by decide) (by decide)

/-! ### `Open` on an existing database -/

theorem dbClose_no_faults (s : State) (db : DB) (h : s.faults = []) :
    dbClose s db = { s with events := s.events ++ [EngineEvent.dbClose db.ptr] } := by
  unfold dbClose
  rw [popFault_of_no_faults s h]

/-- With no failure scheduled and the metadata table present with stored version
`S`, `Open` either registers the handle (requested version empty or equal to `S`)
or raises the version-mismatch exception after closing the handle. -/
theorem Open_existing_no_faults (s : State) (name V : String) (hcc : Bool) (S : String)
    (hfaults : s.faults = [])
    (htable : (fileOf s (dbPath s.dbDir name)).info.isSome = true)
    (hstored : storedVersion (fileOf s (dbPath s.dbDir name)) = .ok S) :
    Open s name V hcc =
      if V ≠ "" ∧ V ≠ S then
        (.error (.webKitException WEBKIT_INVALID_STATE_ERR "InvalidStateError"
            (versionMismatchMessage V S) none),
          { s with nextPtr := s.nextPtr + 1,
                   events := s.events ++ [EngineEvent.dbClose s.nextPtr] })
      else
        registerDb { s with nextPtr := s.nextPtr + 1 }
          { ptr := s.nextPtr, path := dbPath s.dbDir name } false := by
  have h2 : ({ s with nextPtr := s.nextPtr + 1 } : State).faults = [] := hfaults
  have hf : fileOf { s with nextPtr := s.nextPtr + 1 } (dbPath s.dbDir name)
      = fileOf s (dbPath s.dbDir name) := rfl
  unfold Open
  simp only [popFault_of_no_faults s hfaults]
  rw [doesDatabaseInfoExists_no_faults _ _ h2]
  simp only [hf, htable]
  by_cases hv : V = ""
  · simp [hv]
  · simp only [ne_eq, hv, not_false_eq_true, if_true, true_and]
    rw [getDatabaseVersion_no_faults _ _ h2]
    simp only [hf, hstored]
    by_cases hs : S = V
    · have hs2 : ¬ (V ≠ S) := fun hne => hne hs.symm
      simp [hs]
    · have hs2 : V ≠ S := fun e => hs e.symm
      simp only [hs, not_false_eq_true, if_true, hs2, ne_eq]
      rw [dbClose_no_faults _ _ h2]

/-- C6: when the backing database of `name` already holds the metadata table
with stored version `S` and every engine call succeeds, `Open(name, V, h)` fails if
and only if `V` is non-empty and differs from `S`; the error then is a
`WebKitException` with code 11, name "InvalidStateError" and a message containing
both `V` and `S`, no identifier is allocated, the database registry is unchanged
and the handle has been closed. -/
theorem Open_version_mismatch (s : State) (name V : String) (hcc : Bool) (S : String)
    (hfaults : s.faults = [])
    (htable : (fileOf s (dbPath s.dbDir name)).info.isSome = true)
    (hstored : storedVersion (fileOf s (dbPath s.dbDir name)) = .ok S) :
    ((∃ e, (Open s name V hcc).1 = .error e) ↔ (V ≠ "" ∧ V ≠ S)) ∧
      (V ≠ "" → V ≠ S →
        (Open s name V hcc).1 = .error (.webKitException 11 "InvalidStateError"
            (versionMismatchMessage V S) none) ∧
        (∃ a b c, versionMismatchMessage V S = a ++ V ++ b ++ S ++ c) ∧
        (Open s name V hcc).2.nextId = s.nextId ∧
        (Open s name V hcc).2.databases = s.databases ∧
        (Open s name V hcc).2.transactions = s.transactions ∧
        (Open s name V hcc).2.events = s.events ++ [EngineEvent.dbClose s.nextPtr]) := by
  rw [Open_existing_no_faults s name V hcc S hfaults htable hstored]
  constructor
  · constructor
    · rintro ⟨e, he⟩
      by_contra hne
      rw [if_neg hne] at he
      simp [registerDb] at he
    · intro hne
      rw [if_pos hne]
      exact ⟨_, rfl⟩
  · intro h1 h2
    rw [if_pos ⟨h1, h2⟩]
    refine ⟨rfl, ⟨_, _, _, rfl⟩, rfl, rfl, rfl, rfl⟩

theorem Open_version_mismatch_witness :
    ((∃ e, (Open versionedState "mydb" "2" false).1 = .error e) ↔ ("2" ≠ "" ∧ "2" ≠ "1")) ∧
      ("2" ≠ "" → "2" ≠ "1" →
        (Open versionedState "mydb" "2" false).1 = .error (.webKitException 11 "InvalidStateError"
            (versionMismatchMessage "2" "1") none) ∧
        (∃ a b c, versionMismatchMessage "2" "1" = a ++ "2" ++ b ++ "1" ++ c) ∧
        (Open versionedState "mydb" "2" false).2.nextId = versionedState.nextId ∧
        (Open versionedState "mydb" "2" false).2.databases = versionedState.databases ∧
        (Open versionedState "mydb" "2" false).2.transactions = versionedState.transactions ∧
        (Open versionedState "mydb" "2" false).2.events =
          versionedState.events ++ [EngineEvent.dbClose versionedState.nextPtr]) :=
  Open_version_mismatch versionedState "mydb" "2" false "1" (by decide) (by decide) (by decide)

/-! ### Successful `Open` calls under any failure schedule -/

theorem FaultsOnly.refl (s : State) : FaultsOnly s s := ⟨s.faults, rfl⟩

theorem FaultsOnly.trans {s t u : State} (h1 : FaultsOnly s t) (h2 : FaultsOnly t u) :
    FaultsOnly s u := by
  obtain ⟨f1, rfl⟩ := h1
  obtain ⟨f2, rfl⟩ := h2
  exact ⟨f2, rfl⟩

theorem FaultsOnly.files {s t : State} (h : FaultsOnly s t) : t.files = s.files := by
  obtain ⟨fs, rfl⟩ := h; rfl

theorem FaultsOnly.fileOf {s t : State} (h : FaultsOnly s t) (path : String) :
    fileOf t path = fileOf s path := by
  obtain ⟨fs, rfl⟩ := h; rfl

theorem FaultsOnly.dbDir {s t : State} (h : FaultsOnly s t) : t.dbDir = s.dbDir := by
  obtain ⟨fs, rfl⟩ := h; rfl

theorem FaultsOnly.databases {s t : State} (h : FaultsOnly s t) : t.databases = s.databases := by
  obtain ⟨fs, rfl⟩ := h; rfl

theorem FaultsOnly.transactions {s t : State} (h : FaultsOnly s t) :
    t.transactions = s.transactions := by
  obtain ⟨fs, rfl⟩ := h; rfl

theorem faultsOnly_popFault (s : State) : FaultsOnly s (popFault s).2 := popFault_eq s

theorem faultsOnly_snd {α : Type} {f : α × State} {a : α} {t s : State} (h : f = (a, t))
    (hr : FaultsOnly s f.2) : FaultsOnly s t := by
  rw [h] at hr; exact hr

theorem faultsOnly_engineQuery (s : State) (c : Except PlainError Cursor) :
    FaultsOnly s (engineQuery s c).2 := by
  unfold engineQuery
  rcases h1 : popFault s with ⟨_ | e, s1⟩
  · have f1 : FaultsOnly s s1 := faultsOnly_snd h1 (faultsOnly_popFault s)
    rcases c with e | cur
    · exact f1
    · exact f1.trans (faultsOnly_popFault s1)
  · exact faultsOnly_snd h1 (faultsOnly_popFault s)

theorem engineQuery_ok (s s1 : State) (c c1 : Cursor) (h : engineQuery s (.ok c) = (.ok c1, s1)) :
    c1.columnsErr = c.columnsErr ∧ c1.columns = c.columns ∧ c1.rows = c.rows := by
  unfold engineQuery at h
  rcases h1 : popFault s with ⟨_ | e, t⟩
  · rw [h1] at h
    simp only [Prod.mk.injEq, Except.ok.injEq] at h
    rw [← h.1]
    exact ⟨rfl, rfl, rfl⟩
  · rw [h1] at h
    simp at h

theorem faultsOnly_doesDatabaseInfoExists (s : State) (db : DB) :
    FaultsOnly s (doesDatabaseInfoExists s db).2 := by
  unfold doesDatabaseInfoExists
  have h := faultsOnly_engineQuery s (.ok (masterCursor (fileOf s db.path)))
  rcases hq : engineQuery s (.ok (masterCursor (fileOf s db.path))) with ⟨e | rows, s1⟩
  · rw [hq] at h; exact h
  · rw [hq] at h
    simp only
    split <;> exact h

theorem doesDatabaseInfoExists_ok (s s1 : State) (db : DB) (b : Bool)
    (h : doesDatabaseInfoExists s db = (.ok b, s1)) : b = (fileOf s db.path).info.isSome := by
  unfold doesDatabaseInfoExists at h
  rcases hq : engineQuery s (.ok (masterCursor (fileOf s db.path))) with ⟨e | rows, t⟩
  · rw [hq] at h; simp at h
  · obtain ⟨h1, h2, h3⟩ := engineQuery_ok _ _ _ _ hq
    rw [hq] at h
    simp only [buildStruct, h1, h2, h3, masterCursor] at h
    rcases he : rows.err with _ | e
    · rw [he] at h
      simp only [Prod.mk.injEq, Except.ok.injEq] at h
      rw [← h.1]
      rcases (fileOf s db.path).info with _ | r <;> rfl
    · rw [he] at h
      simp at h

theorem faultsOnly_getDatabaseVersion (s : State) (db : DB) :
    FaultsOnly s (getDatabaseVersion s db).2 := by
  unfold getDatabaseVersion
  exact faultsOnly_engineQuery s _

theorem engineExec_ok (s s1 : State) (path : String)
    (effect : DbFile → Except PlainError DbFile) (h : engineExec s path effect = (none, s1)) :
    ∃ t f, FaultsOnly s t ∧ effect (fileOf s path) = .ok f ∧
      s1 = { t with files := mapSet t.files path f } := by
  unfold engineExec at h
  rcases hp : popFault s with ⟨_ | e, t⟩
  · have ft : FaultsOnly s t := faultsOnly_snd hp (faultsOnly_popFault s)
    rw [hp] at h
    simp only at h
    rcases he : effect (fileOf t path) with e | f
    · rw [he] at h; simp at h
    · rw [he] at h
      simp only [Prod.mk.injEq, true_and] at h
      exact ⟨t, f, ft, by rw [← ft.fileOf path, he], h.symm⟩
  · rw [hp] at h
    simp at h

theorem registerDb_files (s : State) (db : DB) (c : Bool) :
    (registerDb s db c).2.files = s.files ∧ (registerDb s db c).2.dbDir = s.dbDir := ⟨rfl, rfl⟩

/-- A successful `Open` either found the metadata table and wrote nothing, or
found none and left the table with the single row `(0, ver)`. -/
theorem Open_ok_cases (s : State) (name V : String) (hcc : Bool) (id : Nat) (created : Bool)
    (hok : (Open s name V hcc).1 = .ok (id, created)) :
    (Open s name V hcc).2.dbDir = s.dbDir ∧
      (((fileOf s (dbPath s.dbDir name)).info.isSome = true ∧ created = false ∧
          (Open s name V hcc).2.files = s.files) ∨
       ((fileOf s (dbPath s.dbDir name)).info = none ∧ created = true ∧
          fileOf (Open s name V hcc).2 (dbPath s.dbDir name) =
            { info := some [(0, Cell.text (if hcc then "" else V))] })) := by
  unfold Open at hok ⊢
  simp only at hok ⊢
  rcases h1 : popFault s with ⟨_ | err, s1⟩
  · have f1 : FaultsOnly s s1 := faultsOnly_snd h1 (faultsOnly_popFault s)
    rw [h1] at hok
    simp only at hok ⊢
    have hfile : fileOf { s1 with nextPtr := s1.nextPtr + 1 } (dbPath s.dbDir name)
        = fileOf s (dbPath s.dbDir name) := f1.fileOf _
    rcases h3 : doesDatabaseInfoExists { s1 with nextPtr := s1.nextPtr + 1 }
        { ptr := s1.nextPtr, path := dbPath s.dbDir name } with ⟨_ | _ | _, s3⟩
    · rw [h3] at hok; simp at hok
    · have hb := doesDatabaseInfoExists_ok _ _ _ _ h3
      have f3 : FaultsOnly { s1 with nextPtr := s1.nextPtr + 1 } s3 :=
        faultsOnly_snd h3 (faultsOnly_doesDatabaseInfoExists _ _)
      simp only [hfile] at hb
      rw [h3] at hok
      simp only at hok ⊢
      rcases h5 : createDatabaseInfo (popFault s3).2
          { ptr := s1.nextPtr, path := dbPath s.dbDir name } with ⟨_ | err, s5⟩
      · rw [h5] at hok
        simp only at hok ⊢
        obtain ⟨t5, g5, ft5, he5, hs5⟩ := engineExec_ok _ _ _ _ h5
        rcases h6 : setDatabaseVersion s5 { ptr := s1.nextPtr, path := dbPath s.dbDir name }
            (if hcc = true then "" else V) with ⟨_ | err, s6⟩
        · rw [h6] at hok
          simp only [registerDb, Except.ok.injEq, Prod.mk.injEq] at hok
          obtain ⟨t6, g6, ft6, he6, hs6⟩ := engineExec_ok _ _ _ _ h6
          have hg5 : g5 = { info := some [] } := by
            unfold createInfo at he5
            split at he5
            · simp only [Except.ok.injEq] at he5; exact he5.symm
            · simp at he5
          have hfile5 : fileOf s5 (dbPath s.dbDir name) = g5 := by
            rw [hs5]; simp [fileOf, mapGet_mapSet_self]
          have hg6 : g6 = { info := some [(0, Cell.text (if hcc = true then "" else V))] } := by
            simp only [hfile5, hg5, replaceInfo, List.filter_nil, insertRow, Except.ok.injEq] at he6
            exact he6.symm
          have hinfo : (fileOf s (dbPath s.dbDir name)).info = none := by
            rcases hi : (fileOf s (dbPath s.dbDir name)).info with _ | r
            · rfl
            · rw [hi] at hb; simp at hb
          have hd6 : s6.dbDir = t6.dbDir := by rw [hs6]
          have hd5 : s5.dbDir = t5.dbDir := by rw [hs5]
          have hdir : s6.dbDir = s.dbDir :=
            hd6.trans (ft6.dbDir.trans (hd5.trans (ft5.dbDir.trans
              ((popFault_dbDir s3).trans (f3.dbDir.trans f1.dbDir)))))
          refine ⟨hdir, Or.inr ⟨hinfo, hok.2.symm, ?_⟩⟩
          simp only [registerDb]
          rw [hs6]
          simp [fileOf, mapGet_mapSet_self, hg6]
        · rw [h6] at hok; simp at hok
      · rw [h5] at hok; simp at hok
    · have hb := doesDatabaseInfoExists_ok _ _ _ _ h3
      have f3 : FaultsOnly { s1 with nextPtr := s1.nextPtr + 1 } s3 :=
        faultsOnly_snd h3 (faultsOnly_doesDatabaseInfoExists _ _)
      simp only [hfile] at hb
      rw [h3] at hok
      simp only at hok ⊢
      have hfiles3 : s3.files = s.files := f3.files.trans f1.files
      have hdir3 : s3.dbDir = s.dbDir := f3.dbDir.trans f1.dbDir
      by_cases hv : V = ""
      · simp only [hv, ne_eq, not_true_eq_false, if_false, registerDb, Except.ok.injEq,
          Prod.mk.injEq] at hok ⊢
        exact ⟨hdir3, Or.inl ⟨hb.symm, hok.2.symm, hfiles3⟩⟩
      · simp only [ne_eq, hv, not_false_eq_true, if_true] at hok ⊢
        rcases h4 : getDatabaseVersion s3 { ptr := s1.nextPtr, path := dbPath s.dbDir name }
          with ⟨_ | curVer, s4⟩
        · rw [h4] at hok; simp at hok
        · have f4 : FaultsOnly s3 s4 := faultsOnly_snd h4 (faultsOnly_getDatabaseVersion _ _)
          rw [h4] at hok
          simp only at hok ⊢
          by_cases hc : curVer = V
          · simp only [hc, not_true_eq_false, if_false, registerDb, Except.ok.injEq,
              Prod.mk.injEq] at hok ⊢
            exact ⟨f4.dbDir.trans hdir3, Or.inl ⟨hb.symm, hok.2.symm, f4.files.trans hfiles3⟩⟩
          · simp [hc] at hok
  · rw [h1] at hok
    simp at hok

theorem storedVersion_single (v : String) :
    storedVersion { info := some [(0, Cell.text v)] } = .ok v := rfl

/-- C7: a successful `Open(name, V, h)` returns `created = true` exactly when the
metadata table did not exist in the backing database before the call; in that
case the stored version after the call is "" if `h` is true and `V` if `h` is
false. Afterwards the table exists, and as long as it does (no file removal), a
later successful `Open` of the same name returns `created = false` and leaves the
backing file, hence the stored version, unchanged. -/
theorem Open_created_iff_fresh (s : State) (name V : String) (hcc : Bool) (id : Nat)
    (created : Bool) (hok : (Open s name V hcc).1 = .ok (id, created)) :
    (created = true ↔ (fileOf s (dbPath s.dbDir name)).info = none) ∧
      (created = true →
        storedVersion (fileOf (Open s name V hcc).2 (dbPath s.dbDir name)) =
          .ok (if hcc then "" else V)) ∧
      (fileOf (Open s name V hcc).2 (dbPath s.dbDir name)).info.isSome = true ∧
      (∀ (later : State) (V2 : String) (hcc2 : Bool) (id2 : Nat) (created2 : Bool),
        later.dbDir = s.dbDir →
        (fileOf later (dbPath s.dbDir name)).info.isSome = true →
        (Open later name V2 hcc2).1 = .ok (id2, created2) →
        created2 = false ∧
          fileOf (Open later name V2 hcc2).2 (dbPath s.dbDir name) =
            fileOf later (dbPath s.dbDir name) ∧
          storedVersion (fileOf (Open later name V2 hcc2).2 (dbPath s.dbDir name)) =
            storedVersion (fileOf later (dbPath s.dbDir name))) := by
  obtain ⟨_, hcase⟩ := Open_ok_cases s name V hcc id created hok
  refine ⟨?_, ?_, ?_, ?_⟩
  · rcases hcase with ⟨h1, h2, _⟩ | ⟨h1, h2, _⟩
    · constructor
      · intro hc; rw [h2] at hc; simp at hc
      · intro hn; rw [hn] at h1; simp at h1
    · exact ⟨fun _ => h1, fun _ => h2⟩
  · intro hc
    rcases hcase with ⟨_, h2, _⟩ | ⟨_, _, h3⟩
    · rw [h2] at hc; simp at hc
    · rw [h3]; exact storedVersion_single _
  · rcases hcase with ⟨h1, _, h3⟩ | ⟨_, _, h3⟩
    · simp only [fileOf, h3] at h1 ⊢
      exact h1
    · rw [h3]; rfl
  · intro later V2 hcc2 id2 created2 hdir htable hok2
    obtain ⟨_, hcase2⟩ := Open_ok_cases later name V2 hcc2 id2 created2 hok2
    rw [hdir] at hcase2
    rcases hcase2 with ⟨_, h2, h3⟩ | ⟨h1, _, _⟩
    · have hfile : fileOf (Open later name V2 hcc2).2 (dbPath s.dbDir name) =
          fileOf later (dbPath s.dbDir name) := by
        simp only [fileOf, h3]
      exact ⟨h2, hfile, by rw [hfile]⟩
    · rw [h1] at htable; simp at htable

theorem Open_created_iff_fresh_witness :
    (true = true ↔ (fileOf (State.start "" false [] [])
        (dbPath (State.start "" false [] []).dbDir "mydb")).info = none) ∧
      (true = true →
        storedVersion (fileOf (Open (State.start "" false [] []) "mydb" "1" false).2
            (dbPath (State.start "" false [] []).dbDir "mydb")) =
          .ok (if false then "" else "1")) ∧
      (fileOf (Open (State.start "" false [] []) "mydb" "1" false).2
          (dbPath (State.start "" false [] []).dbDir "mydb")).info.isSome = true ∧
      (∀ (later : State) (V2 : String) (hcc2 : Bool) (id2 : Nat) (created2 : Bool),
        later.dbDir = (State.start "" false [] []).dbDir →
        (fileOf later (dbPath (State.start "" false [] []).dbDir "mydb")).info.isSome = true →
        (Open later "mydb" V2 hcc2).1 = .ok (id2, created2) →
        created2 = false ∧
          fileOf (Open later "mydb" V2 hcc2).2 (dbPath (State.start "" false [] []).dbDir "mydb") =
            fileOf later (dbPath (State.start "" false [] []).dbDir "mydb") ∧
          storedVersion (fileOf (Open later "mydb" V2 hcc2).2
              (dbPath (State.start "" false [] []).dbDir "mydb")) =
            storedVersion (fileOf later (dbPath (State.start "" false [] []).dbDir "mydb"))) :=
  Open_created_iff_fresh (State.start "" false [] []) "mydb" "1" false 1 true (by decide)

/-! ### Version changes inside a transaction -/

theorem getDatabaseVersionByTx_no_faults (s : State) (tx : Tx) (h : s.faults = []) :
    getDatabaseVersionByTx s tx = (storedVersion tx.view, s) := by
  unfold getDatabaseVersionByTx storedVersion
  rcases hc : infoCursor tx.view with e | c
  · rw [engineQuery_error_no_faults s e h]
  · rw [engineQuery_ok_no_faults s c h (infoCursor_err _ _ hc)]

theorem setDatabaseVersionByTx_no_faults (s : State) (tx : Tx) (v : String) (h : s.faults = []) :
    setDatabaseVersionByTx s tx v =
      match replaceInfo tx.view v with
      | .error e => (some e, s, tx)
      | .ok f => (none, s, { tx with view := f }) := by
  unfold setDatabaseVersionByTx
  rw [popFault_of_no_faults s h]

theorem insertRow_head (r : Int × Cell) (l : List (Int × Cell)) (h : ∀ x ∈ l, r.1 < x.1) :
    insertRow r l = r :: l := by
  cases l with
  | nil => rfl
  | cons x xs => simp [insertRow, h x (List.mem_cons_self _ _)]

/-- On a metadata table without negative row ids, the REPLACE statement leaves
the row `(0, v)` first. -/
theorem replaceInfo_head (f : DbFile) (rows : List (Int × Cell)) (v : String)
    (hrows : f.info = some rows) (hwf : ∀ r ∈ rows, 0 ≤ r.1) :
    replaceInfo f v =
      .ok { info := some ((0, Cell.text v) :: rows.filter (fun r => decide (r.1 ≠ 0))) } := by
  unfold replaceInfo
  rw [hrows]
  simp only
  rw [insertRow_head]
  intro x hx
  have h1 := List.mem_filter.mp hx
  have h2 := hwf x h1.1
  have h3 : x.1 ≠ 0 := by simpa using h1.2
  simp only
  omega

theorem storedVersion_head (v : String) (rest : List (Int × Cell)) :
    storedVersion { info := some ((0, Cell.text v) :: rest) } = .ok v := rfl

/-- C8 (as stated, refuted): the transaction 2 of `negativeRowState`, whose metadata
table holds the rows `(-1, "x")` and `(0, "1")`, sees stored version "x"; with no
engine failure `ChangeDbVersion(2, "x", "2")` returns no error, yet the stored
version the transaction sees afterwards is still "x", not "2". -/
theorem version_seen_unchanged_with_negative_row :
    negativeRowState.faults = [] ∧
      (mapGet negativeRowState.transactions 2).map (fun w => w.tx.view.info)
        = some (some [(-1, Cell.text "x"), (0, Cell.text "1")]) ∧
      (mapGet negativeRowState.transactions 2).map
          (fun w => (getDatabaseVersionByTx negativeRowState w.tx).1) = some (.ok "x") ∧
      (ChangeDbVersion negativeRowState 2 "x" "2").1 = none ∧
      (mapGet (ChangeDbVersion negativeRowState 2 "x" "2").2.transactions 2).map
          (fun w => (getDatabaseVersionByTx (ChangeDbVersion negativeRowState 2 "x" "2").2 w.tx).1)
        = some (.ok "x") := by
  decide

/-- C8 (amended): for a live `txId` whose transaction sees stored version `cur` in a
metadata table that holds no row with a negative id, and with every engine call
succeeding,
`ChangeDbVersion(txId, old, new)` returns `SqlError` code `VERSION_ERR` (2) and
changes nothing when `cur` differs from `old`; when `cur` equals `old` it returns
no error and the stored version seen by the transaction becomes `new`. In both
cases `txId` stays registered. -/
theorem ChangeDbVersion_version_check (s : State) (txId : Nat) (oldVer newVer : String)
    (w : TxWrapper) (cur : String) (rows : List (Int × Cell))
    (hlive : mapGet s.transactions txId = some w) (hfaults : s.faults = [])
    (hrows : w.tx.view.info = some rows) (hwf : ∀ r ∈ rows, 0 ≤ r.1)
    (hcur : storedVersion w.tx.view = .ok cur) :
    (cur ≠ oldVer →
        (∃ msg, (ChangeDbVersion s txId oldVer newVer).1 =
          some (.sqlError WEBSQL_VERSION_ERR msg none)) ∧
        WEBSQL_VERSION_ERR = 2 ∧
        (ChangeDbVersion s txId oldVer newVer).2 = s ∧
        mapGet (ChangeDbVersion s txId oldVer newVer).2.transactions txId = some w) ∧
      (cur = oldVer →
        (ChangeDbVersion s txId oldVer newVer).1 = none ∧
        ∃ v, mapGet (ChangeDbVersion s txId oldVer newVer).2.transactions txId = some v ∧
          storedVersion v.tx.view = .ok newVer ∧ v.db = w.db ∧
          (ChangeDbVersion s txId oldVer newVer).2.databases = s.databases ∧
          (ChangeDbVersion s txId oldVer newVer).2.files = s.files) := by
  unfold ChangeDbVersion
  simp only [hlive]
  rw [getDatabaseVersionByTx_no_faults s w.tx hfaults, hcur]
  simp only
  constructor
  · intro hne
    rw [if_pos hne]
    exact ⟨⟨_, rfl⟩, rfl, rfl, hlive⟩
  · intro heq
    rw [if_neg (fun hne : cur ≠ oldVer => hne heq),
      setDatabaseVersionByTx_no_faults s w.tx newVer hfaults,
      replaceInfo_head w.tx.view rows newVer hrows hwf]
    exact ⟨rfl, _, mapGet_mapSet_self _ _ _, storedVersion_head _ _, rfl, rfl, rfl⟩

theorem ChangeDbVersion_version_check_witness :
    ("1" ≠ "1" →
        (∃ msg, (ChangeDbVersion sampleState 2 "1" "2").1 =
          some (.sqlError WEBSQL_VERSION_ERR msg none)) ∧
        WEBSQL_VERSION_ERR = 2 ∧
        (ChangeDbVersion sampleState 2 "1" "2").2 = sampleState ∧
        mapGet (ChangeDbVersion sampleState 2 "1" "2").2.transactions 2 = some sampleTx) ∧
      ("1" = "1" →
        (ChangeDbVersion sampleState 2 "1" "2").1 = none ∧
        ∃ v, mapGet (ChangeDbVersion sampleState 2 "1" "2").2.transactions 2 = some v ∧
          storedVersion v.tx.view = .ok "2" ∧ v.db = sampleTx.db ∧
          (ChangeDbVersion sampleState 2 "1" "2").2.databases = sampleState.databases ∧
          (ChangeDbVersion sampleState 2 "1" "2").2.files = sampleState.files) :=
  ChangeDbVersion_version_check sampleState 2 "1" "2" sampleTx "1" [(0, Cell.text "1")]
    (by decide) (by decide) (by decide) (by decide) (by decide)

/-! ### Version change, commit, read back -/

theorem faultsOnly_getDatabaseVersionByTx (s : State) (tx : Tx) :
    FaultsOnly s (getDatabaseVersionByTx s tx).2 := by
  unfold getDatabaseVersionByTx
  exact faultsOnly_engineQuery s _

/-- A `ChangeDbVersion` that returns no error has run the REPLACE statement on the
view of the transaction and touched nothing else but the failure schedule. -/
theorem ChangeDbVersion_ok (s : State) (txId : Nat) (oldVer newVer : String) (w : TxWrapper)
    (hlive : mapGet s.transactions txId = some w)
    (hok : (ChangeDbVersion s txId oldVer newVer).1 = none) :
    ∃ f, replaceInfo w.tx.view newVer = .ok f ∧
      mapGet (ChangeDbVersion s txId oldVer newVer).2.transactions txId =
        some { w with tx := { w.tx with view := f } } ∧
      (ChangeDbVersion s txId oldVer newVer).2.databases = s.databases ∧
      (ChangeDbVersion s txId oldVer newVer).2.files = s.files := by
  unfold ChangeDbVersion at hok ⊢
  simp only [hlive] at hok ⊢
  rcases hg : getDatabaseVersionByTx s w.tx with ⟨_ | ver, s1⟩
  · rw [hg] at hok; simp at hok
  · have f1 : FaultsOnly s s1 := faultsOnly_snd hg (faultsOnly_getDatabaseVersionByTx _ _)
    rw [hg] at hok
    simp only at hok ⊢
    by_cases hv : ver = oldVer
    · simp only [ne_eq, hv, not_true_eq_false, if_false] at hok ⊢
      unfold setDatabaseVersionByTx at hok ⊢
      rcases hp : popFault s1 with ⟨_ | e, s2⟩
      · have f2 : FaultsOnly s1 s2 := faultsOnly_snd hp (faultsOnly_popFault s1)
        rw [hp] at hok
        simp only at hok ⊢
        rcases hr : replaceInfo w.tx.view newVer with e | f
        · rw [hr] at hok; simp at hok
        · simp only
          refine ⟨f, rfl, mapGet_mapSet_self _ _ _, ?_, ?_⟩
          · exact f2.databases.trans f1.databases
          · exact f2.files.trans f1.files
      · rw [hp] at hok; simp at hok
    · simp [hv] at hok

theorem Commit_ok (s : State) (txId : Nat) (w : TxWrapper)
    (hlive : mapGet s.transactions txId = some w) (hok : (Commit s txId).1 = none) :
    (Commit s txId).2.files = mapSet s.files w.tx.path w.tx.view ∧
      (Commit s txId).2.databases = s.databases := by
  unfold Commit at hok ⊢
  simp only [hlive] at hok ⊢
  rcases hp : popFault { s with transactions := mapDelete s.transactions txId } with ⟨_ | e, s2⟩
  · have f2 := faultsOnly_snd hp (faultsOnly_popFault _)
    simp only
    exact ⟨by rw [f2.files], f2.databases⟩
  · rw [hp] at hok; simp at hok

theorem DatabaseVersion_no_faults (s : State) (dbId : Nat) (db : DB)
    (hdb : mapGet s.databases dbId = some db) (h : s.faults = []) :
    (DatabaseVersion s dbId).1 =
      match storedVersion (fileOf s db.path) with
      | .error e => .error (.plain e)
      | .ok v => .ok v := by
  unfold DatabaseVersion
  simp only [hdb]
  have hq : engineQuery s (infoCursor (fileOf s db.path)) = (infoCursor (fileOf s db.path), s) := by
    rcases hc : infoCursor (fileOf s db.path) with e | c
    · exact engineQuery_error_no_faults s e h
    · exact engineQuery_ok_no_faults s c h (infoCursor_err _ _ hc)
  rw [hq]
  simp only [storedVersion]
  split <;> rfl

/-- C9 (as stated, refuted): in `negativeRowState` the database 1 is open and the
transaction 2 was begun on it; `ChangeDbVersion(2, "x", "2")` returns no error and
`Commit(2)` returns no error, yet the next `DatabaseVersion(1)` returns "x", not
"2" (the committed table holds the rows `(-1, "x")` and `(0, "2")`). -/
theorem DatabaseVersion_after_commit_with_negative_row :
    (mapGet negativeRowState.databases 1).isSome = true ∧
      (mapGet negativeRowState.transactions 2).map (fun w => w.db)
        = mapGet negativeRowState.databases 1 ∧
      (ChangeDbVersion negativeRowState 2 "x" "2").1 = none ∧
      (Commit (ChangeDbVersion negativeRowState 2 "x" "2").2 2).1 = none ∧
      (DatabaseVersion (Commit (ChangeDbVersion negativeRowState 2 "x" "2").2 2).2 1).1
        = .ok "x" ∧
      (fileOf (Commit (ChangeDbVersion negativeRowState 2 "x" "2").2 2).2
          "mydb_6d796462.db").info = some [(-1, Cell.text "x"), (0, Cell.text "2")] := by
  decide

/-- C9 (amended): for an open `dbId` and a transaction begun on it whose metadata
table holds no row with a negative id, if `ChangeDbVersion(tx, old, new)` returns no error,
`Commit(tx)` then returns no error and the engine answers the following query,
the next `DatabaseVersion(dbId)` returns `new`. -/
theorem changeVersion_commit_then_DatabaseVersion (s : State) (dbId txId : Nat)
    (oldVer newVer : String) (db : DB) (w : TxWrapper) (rows : List (Int × Cell))
    (hdb : mapGet s.databases dbId = some db)
    (htx : mapGet s.transactions txId = some w)
    (hbegun : w.db = db ∧ w.tx.path = db.path)
    (hrows : w.tx.view.info = some rows) (hwf : ∀ r ∈ rows, 0 ≤ r.1)
    (hchange : (ChangeDbVersion s txId oldVer newVer).1 = none)
    (hcommit : (Commit (ChangeDbVersion s txId oldVer newVer).2 txId).1 = none)
    (hquery : (Commit (ChangeDbVersion s txId oldVer newVer).2 txId).2.faults = []) :
    (DatabaseVersion (Commit (ChangeDbVersion s txId oldVer newVer).2 txId).2 dbId).1 =
      .ok newVer := by
  obtain ⟨f, hf, hreg, hdbs, _⟩ := ChangeDbVersion_ok s txId oldVer newVer w htx hchange
  obtain ⟨hfiles, hdbs2⟩ := Commit_ok _ txId _ hreg hcommit
  rw [replaceInfo_head w.tx.view rows newVer hrows hwf] at hf
  simp only [Except.ok.injEq] at hf
  have hdb2 : mapGet (Commit (ChangeDbVersion s txId oldVer newVer).2 txId).2.databases dbId
      = some db := by rw [hdbs2, hdbs]; exact hdb
  rw [DatabaseVersion_no_faults _ dbId db hdb2 hquery]
  have hfile : fileOf (Commit (ChangeDbVersion s txId oldVer newVer).2 txId).2 db.path = f := by
    simp only [fileOf, hfiles, hbegun.2, mapGet_mapSet_self, Option.getD_some]
  rw [hfile, ← hf, storedVersion_head]

theorem changeVersion_commit_then_DatabaseVersion_witness :
    (DatabaseVersion (Commit (ChangeDbVersion sampleState 2 "1" "2").2 2).2 1).1 = .ok "2" :=
  changeVersion_commit_then_DatabaseVersion sampleState 1 2 "1" "2" { ptr := 0, path := "a.db" }
    sampleTx [(0, Cell.text "1")] (by decide) (by decide) (by decide) (by decide) (by decide)
    (by decide) (by decide) (by decide)

/-! ### Error frames of the exec command -/

theorem sqlerrorCode_sqlError (code : Int) (message : String) (e : Option PlainError) :
    sqlerrorCode (makeErrorResp (.sqlError code message e)) = some code := by
  simp [sqlerrorCode, makeErrorResp, mapSet, mapDelete, mapGet_cons]

theorem sqlerrorCode_success (payload : Json) :
    sqlerrorCode (makeSuccessResp payload) = none := by
  simp [sqlerrorCode, makeSuccessResp, mapSet, mapDelete, mapGet_cons, mapGet]

theorem sqlerrorCode_plain (e : PlainError) :
    sqlerrorCode (makeErrorResp (.plain e)) =
      match e with
      | .sqlite3 code _ => if code = ErrFull then some WEBSQL_QUOTA_ERR else none
      | .other _ => none := by
  rcases e with ⟨code, msg⟩ | msg
  · by_cases hc : code = ErrFull
    · simp [sqlerrorCode, makeErrorResp, mapSet, mapDelete, mapGet_cons, hc]
    · simp [sqlerrorCode, makeErrorResp, mapSet, mapDelete, mapGet_cons, mapGet, hc]
  · simp [sqlerrorCode, makeErrorResp, mapSet, mapDelete, mapGet_cons, mapGet]

/-- The frame written by the exec case, by outcome of the statement. -/
theorem execCase_frames (engine : Engine) (s : State) (txId : Nat) (msg : TransactionMsg)
    (w : TxWrapper) (hlive : mapGet s.transactions txId = some w) :
    (execCase engine s txId msg).frames.map sqlerrorCode =
      match (engine.run w.tx msg.Stmt msg.Args).queryErr with
      | some _ => [some WEBSQL_SYNTAX_ERR]
      | none =>
        match (buildStruct (engine.run w.tx msg.Stmt msg.Args).cursor).2 with
        | some e => [sqlerrorCode (makeErrorResp (.plain e))]
        | none => [none] := by
  unfold execCase Exec
  simp only [hlive]
  rcases (engine.run w.tx msg.Stmt msg.Args).queryErr with _ | e
  · simp only
    rcases buildStruct (engine.run w.tx msg.Stmt msg.Args).cursor with ⟨data, _ | e⟩
    · simp only [List.map, sqlerrorCode_success]
    · simp only [List.map]
  · simp only [List.map, sqlerrorCode_sqlError]

/-- C10 (as stated, refuted): an exec on a live transaction whose `Query` call
fails with the engine error "database full" is answered with a sqlerror frame of
code `SYNTAX_ERR` (5), not `QUOTA_ERR` (4). -/
theorem database_full_at_query_reported_as_syntax_error :
    (fullAtQueryEngine.run sampleTx.tx insertMsg.Stmt insertMsg.Args).queryErr =
        some (.sqlite3 ErrFull "database or disk is full") ∧
      (transactionTurn fullAtQueryEngine sampleState 1 2 (some insertMsg)).frames.map sqlerrorCode
        = [some 5] := by
  decide

/-- C10 (amended): for an exec command on a live transaction, every engine error
returned by the `Query` call itself, "database full" included, is reported as a
sqlerror frame with code `SYNTAX_ERR` (5), and nothing else is reported with that
code; when `Query` succeeds and "database full" surfaces while the rows are read
(`rows.Err()`), the frame is a sqlerror with code `QUOTA_ERR` (4). -/
theorem exec_error_frame_codes (engine : Engine) (s : State) (dbId txId : Nat)
    (msg : TransactionMsg) (w : TxWrapper)
    (hcmd : msg.Cmd = "exec") (htx : txId ≠ 0) (hstmt : msg.Stmt ≠ "")
    (hlive : mapGet s.transactions txId = some w) :
    (∀ e, (engine.run w.tx msg.Stmt msg.Args).queryErr = some e →
        (transactionTurn engine s dbId txId (some msg)).frames.map sqlerrorCode
          = [some WEBSQL_SYNTAX_ERR]) ∧
      (∀ text, (engine.run w.tx msg.Stmt msg.Args).queryErr = none →
        (buildStruct (engine.run w.tx msg.Stmt msg.Args).cursor).2
          = some (.sqlite3 ErrFull text) →
        (transactionTurn engine s dbId txId (some msg)).frames.map sqlerrorCode
          = [some WEBSQL_QUOTA_ERR]) ∧
      ((transactionTurn engine s dbId txId (some msg)).frames.map sqlerrorCode
          = [some WEBSQL_SYNTAX_ERR] →
        (engine.run w.tx msg.Stmt msg.Args).queryErr.isSome = true) ∧
      WEBSQL_QUOTA_ERR = 4 ∧ WEBSQL_SYNTAX_ERR = 5 := by
  have hne : ¬ ("exec" = "begin") := by decide
  have hturn : transactionTurn engine s dbId txId (some msg) = execCase engine s txId msg := by
    unfold transactionTurn
    simp only [hcmd, hne, if_false, if_true, htx, hstmt]
  rw [hturn, execCase_frames engine s txId msg w hlive]
  refine ⟨?_, ?_, ?_, rfl, rfl⟩
  · intro e he
    rw [he]
  · intro text hq hb
    rw [hq, hb]
    simp only [sqlerrorCode_plain, if_true]
  · intro h
    rcases hq : (engine.run w.tx msg.Stmt msg.Args).queryErr with _ | e
    · rw [hq] at h
      simp only at h
      rcases hb : (buildStruct (engine.run w.tx msg.Stmt msg.Args).cursor).2 with _ | e
      · rw [hb] at h; simp at h
      · rw [hb] at h
        simp only [sqlerrorCode_plain, List.cons.injEq, and_true] at h
        rcases e with ⟨code, m⟩ | m
        · by_cases hc : code = ErrFull
          · simp only [hc, if_true, Option.some.injEq] at h
            exact absurd h (by decide)
          · simp [hc] at h
        · simp at h
    · rfl

theorem exec_error_frame_codes_witness :
    (∀ e, (fullAtRowsEngine.run sampleTx.tx insertMsg.Stmt insertMsg.Args).queryErr = some e →
        (transactionTurn fullAtRowsEngine sampleState 1 2 (some insertMsg)).frames.map sqlerrorCode
          = [some WEBSQL_SYNTAX_ERR]) ∧
      (∀ text, (fullAtRowsEngine.run sampleTx.tx insertMsg.Stmt insertMsg.Args).queryErr = none →
        (buildStruct (fullAtRowsEngine.run sampleTx.tx insertMsg.Stmt insertMsg.Args).cursor).2
          = some (.sqlite3 ErrFull text) →
        (transactionTurn fullAtRowsEngine sampleState 1 2 (some insertMsg)).frames.map sqlerrorCode
          = [some WEBSQL_QUOTA_ERR]) ∧
      ((transactionTurn fullAtRowsEngine sampleState 1 2 (some insertMsg)).frames.map sqlerrorCode
          = [some WEBSQL_SYNTAX_ERR] →
        (fullAtRowsEngine.run sampleTx.tx insertMsg.Stmt insertMsg.Args).queryErr.isSome = true) ∧
      WEBSQL_QUOTA_ERR = 4 ∧ WEBSQL_SYNTAX_ERR = 5 :=
  exec_error_frame_codes fullAtRowsEngine sampleState 1 2 insertMsg sampleTx
    (by decide) (by decide) (by decide) (by decide)

/-! ### Wire shapes -/

/-- C11: `makeErrorResp(e)` is an object with exactly one key: "sqlerror" with the
fields `code` and `message` when `e` is a `SqlError` (its own code and message) or
an engine error whose code is "full" (code 4, the error's message); "exception"
with the fields `code`, `name` and `message` when `e` is a `WebKitException`;
"error" with name "UnknownError" and the error's message for every other error.
`makeSuccessResp(d)` is the object with the single key "data" mapped to `d`. -/
theorem wire_shapes :
    (∀ code message err, makeErrorResp (.sqlError code message err) =
        [("sqlerror", .obj [("message", .str message), ("code", .num code)])]) ∧
      (∀ msg, makeErrorResp (.plain (.sqlite3 ErrFull msg)) =
        [("sqlerror", .obj [("message", .str msg), ("code", .num 4)])]) ∧
      (∀ code name message err, makeErrorResp (.webKitException code name message err) =
        [("exception", .obj [("message", .str message), ("name", .str name),
          ("code", .num code)])]) ∧
      (∀ code msg, code ≠ ErrFull → makeErrorResp (.plain (.sqlite3 code msg)) =
        [("error", .obj [("message", .str msg), ("name", .str "UnknownError")])]) ∧
      (∀ msg, makeErrorResp (.plain (.other msg)) =
        [("error", .obj [("message", .str msg), ("name", .str "UnknownError")])]) ∧
      (∀ e, (makeErrorResp e).length = 1) ∧
      (∀ d, makeSuccessResp d = [("data", d)]) := by
  refine ⟨?_, ?_, ?_, ?_, ?_, ?_, ?_⟩
  · intro code message err
    simp [makeErrorResp, mapSet, mapDelete]
  · intro msg
    simp [makeErrorResp, mapSet, mapDelete, WEBSQL_QUOTA_ERR]
  · intro code name message err
    simp [makeErrorResp, mapSet, mapDelete]
  · intro code msg hne
    simp [makeErrorResp, mapSet, mapDelete, hne]
  · intro msg
    simp [makeErrorResp, mapSet, mapDelete]
  · intro e
    rcases e with ⟨code, message, e⟩ | ⟨code, name, message, e⟩ | ⟨code, msg⟩ | msg
    · simp [makeErrorResp, mapSet, mapDelete]
    · simp [makeErrorResp, mapSet, mapDelete]
    · by_cases hc : code = ErrFull <;> simp [makeErrorResp, mapSet, mapDelete, hc]
    · simp [makeErrorResp, mapSet, mapDelete]
  · intro d
    simp [makeSuccessResp, mapSet, mapDelete]

/-! ### Closing a database -/

/-- `Close` of an identifier that is not registered fails with `DATABASE_ERR`
and changes nothing. -/
theorem Close_missing (s : State) (dbId : Nat) (h : mapGet s.databases dbId = none) :
    Close s dbId = (some (.sqlError 1 "db missing (already closed?)" none), s) := by
  have hs : ({ s with databases := mapDelete s.databases dbId } : State) = s := by
    rw [mapDelete_of_mapGet_none _ _ h]
  unfold Close
  simp only [h, hs]
  rfl

/-- C13: for a registered `dbId` the first `Close(dbId)` returns no error and
removes `dbId` from the database registry, leaving every other entry (and the
transaction registry) in place; a second `Close(dbId)` returns `SqlError` with
code `DATABASE_ERR` (1) and changes nothing. -/
theorem Close_once_then_missing (s : State) (dbId : Nat) (db : DB)
    (hreg : mapGet s.databases dbId = some db) :
    (Close s dbId).1 = none ∧
      (Close s dbId).2.databases = mapDelete s.databases dbId ∧
      mapGet (Close s dbId).2.databases dbId = none ∧
      (∀ other, other ≠ dbId →
        mapGet (Close s dbId).2.databases other = mapGet s.databases other) ∧
      (Close s dbId).2.transactions = s.transactions ∧
      Close (Close s dbId).2 dbId =
        (some (.sqlError 1 "db missing (already closed?)" none), (Close s dbId).2) ∧
      WEBSQL_DATABASE_ERR = 1 := by
  have hd : (Close s dbId).2.databases = mapDelete s.databases dbId := by
    unfold Close
    simp only [hreg, dbClose_databases]
  have hgone : mapGet (Close s dbId).2.databases dbId = none := by
    rw [hd]; exact mapGet_mapDelete_self _ _
  refine ⟨?_, hd, hgone, ?_, ?_, ?_, rfl⟩
  · unfold Close
    simp only [hreg]
  · intro other hne
    rw [hd]
    exact mapGet_mapDelete_ne _ (fun e => hne e.symm)
  · unfold Close
    simp only [hreg, dbClose_transactions]
  · exact Close_missing _ _ hgone

theorem Close_once_then_missing_witness :
    (Close sampleState 1).1 = none ∧
      (Close sampleState 1).2.databases = mapDelete sampleState.databases 1 ∧
      mapGet (Close sampleState 1).2.databases 1 = none ∧
      (∀ other, other ≠ 1 →
        mapGet (Close sampleState 1).2.databases other = mapGet sampleState.databases other) ∧
      (Close sampleState 1).2.transactions = sampleState.transactions ∧
      Close (Close sampleState 1).2 1 =
        (some (.sqlError 1 "db missing (already closed?)" none), (Close sampleState 1).2) ∧
      WEBSQL_DATABASE_ERR = 1 :=
  Close_once_then_missing sampleState 1 { ptr := 0, path := "a.db" } (by decide)

/-! ### Closing everything -/

@[simp] theorem popFault_events (s : State) : (popFault s).2.events = s.events := by
  obtain ⟨fs, h⟩ := popFault_eq s; rw [h]

theorem txRollback_events (s : State) (tx : Nat) :
    (txRollback s tx).2.events = s.events ++ [EngineEvent.txRollback tx] := by
  simp [txRollback]

theorem dbClose_events (s : State) (db : DB) :
    (dbClose s db).events = s.events ++ [EngineEvent.dbClose db.ptr] := by
  simp [dbClose]

theorem rollbacks_events (l : List (Nat × TxWrapper)) (s : State) :
    (l.foldl (fun st p => (txRollback st p.2.tx.ptr).2) s).events =
      s.events ++ l.map (fun p => EngineEvent.txRollback p.2.tx.ptr) := by
  induction l generalizing s with
  | nil => simp
  | cons p rest ih =>
    rw [List.foldl_cons, ih, txRollback_events]
    simp

theorem closes_events (l : List (Nat × DB)) (s : State) :
    (l.foldl (fun st p => dbClose st p.2) s).events =
      s.events ++ l.map (fun p => EngineEvent.dbClose p.2.ptr) := by
  induction l generalizing s with
  | nil => simp
  | cons p rest ih =>
    rw [List.foldl_cons, ih, dbClose_events]
    simp

/-- `closeConnectionsLocked` calls `Rollback` on every registered transaction,
then `Close` on every registered handle. -/
theorem closeConnectionsLocked_events (s : State) :
    (closeConnectionsLocked s).events =
      s.events ++ s.transactions.map (fun p => EngineEvent.txRollback p.2.tx.ptr)
        ++ s.databases.map (fun p => EngineEvent.dbClose p.2.ptr) := by
  unfold closeConnectionsLocked
  simp only
  have h1 := regs_foldl (fun st (p : Nat × TxWrapper) => (txRollback st p.2.tx.ptr).2)
    (fun st p => regs_txRollback st _) s.transactions s
  obtain ⟨h1d, _, _⟩ := regs_of_eq h1
  rw [closes_events, h1d]
  simp only
  rw [rollbacks_events]

theorem events_foldl {β : Type} (f : State → β → State)
    (hf : ∀ st b, (f st b).events = st.events) (l : List β) (s : State) :
    (l.foldl f s).events = s.events := by
  induction l generalizing s with
  | nil => rfl
  | cons b rest ih => rw [List.foldl_cons, ih, hf]

theorem DeleteAllDatabases_events (s : State) :
    (DeleteAllDatabases s).events = (closeConnectionsLocked s).events := by
  unfold DeleteAllDatabases
  simp only
  rcases hp : popFault (closeConnectionsLocked s) with ⟨_ | e, s2⟩
  · have h2 : s2.events = (closeConnectionsLocked s).events := by
      have := popFault_events (closeConnectionsLocked s)
      rw [hp] at this
      exact this
    simp only
    split
    · exact h2
    · refine Eq.trans (events_foldl _ ?_ _ _) h2
      intro st p
      split
      · rcases hq : popFault st with ⟨_ | e, st1⟩
        · have := popFault_events st
          rw [hq] at this
          simpa using this
        · have := popFault_events st
          rw [hq] at this
          simpa using this
      · rfl
  · have := popFault_events (closeConnectionsLocked s)
    rw [hp] at this
    exact this

/-- Once both registries are empty every identifier is rejected. -/
theorem rejected_when_empty (engine : Engine) (t : State) (dbId : Nat)
    (hd : t.databases = []) :
    Close t dbId = (some (.sqlError WEBSQL_DATABASE_ERR "db missing (already closed?)" none), t) ∧
      BeginTransaction engine t dbId = (.error (.sqlError WEBSQL_UNKNOWN_ERR dbNotFound none), t) ∧
      DatabaseVersion t dbId = (.error (.sqlError WEBSQL_UNKNOWN_ERR dbNotFound none), t) := by
  have hg : mapGet t.databases dbId = none := by rw [hd]; rfl
  refine ⟨Close_missing t dbId hg, ?_, ?_⟩
  · unfold BeginTransaction
    simp only [hg]
  · unfold DatabaseVersion
    simp only [hg]

/-- C14: after `CloseAllConnections` or `DeleteAllDatabases` both registries are
empty and `Rollback` has been called on every transaction that was registered
(then `Close` on every handle); afterwards every `dbId` is rejected: `Close`
returns `DATABASE_ERR`, `BeginTransaction` and `DatabaseVersion` return
`UNKNOWN_ERR`, and none of them changes the state. -/
theorem closeAll_empties_and_rejects (engine : Engine) (s : State) (dbId : Nat) :
    ((CloseAllConnections s).databases = [] ∧ (CloseAllConnections s).transactions = [] ∧
      (CloseAllConnections s).events =
        s.events ++ s.transactions.map (fun p => EngineEvent.txRollback p.2.tx.ptr)
          ++ s.databases.map (fun p => EngineEvent.dbClose p.2.ptr) ∧
      Close (CloseAllConnections s) dbId =
        (some (.sqlError WEBSQL_DATABASE_ERR "db missing (already closed?)" none),
          CloseAllConnections s) ∧
      BeginTransaction engine (CloseAllConnections s) dbId =
        (.error (.sqlError WEBSQL_UNKNOWN_ERR dbNotFound none), CloseAllConnections s) ∧
      DatabaseVersion (CloseAllConnections s) dbId =
        (.error (.sqlError WEBSQL_UNKNOWN_ERR dbNotFound none), CloseAllConnections s)) ∧
    ((DeleteAllDatabases s).databases = [] ∧ (DeleteAllDatabases s).transactions = [] ∧
      (DeleteAllDatabases s).events =
        s.events ++ s.transactions.map (fun p => EngineEvent.txRollback p.2.tx.ptr)
          ++ s.databases.map (fun p => EngineEvent.dbClose p.2.ptr) ∧
      Close (DeleteAllDatabases s) dbId =
        (some (.sqlError WEBSQL_DATABASE_ERR "db missing (already closed?)" none),
          DeleteAllDatabases s) ∧
      BeginTransaction engine (DeleteAllDatabases s) dbId =
        (.error (.sqlError WEBSQL_UNKNOWN_ERR dbNotFound none), DeleteAllDatabases s) ∧
      DatabaseVersion (DeleteAllDatabases s) dbId =
        (.error (.sqlError WEBSQL_UNKNOWN_ERR dbNotFound none), DeleteAllDatabases s)) ∧
    WEBSQL_DATABASE_ERR = 1 ∧ WEBSQL_UNKNOWN_ERR = 0 := by
  obtain ⟨c1, c2, _⟩ := closeConnectionsLocked_effect s
  obtain ⟨d1, d2, _⟩ := DeleteAllDatabases_effect s
  obtain ⟨r1, r2, r3⟩ := rejected_when_empty engine (CloseAllConnections s) dbId c1
  obtain ⟨q1, q2, q3⟩ := rejected_when_empty engine (DeleteAllDatabases s) dbId d1
  refine ⟨⟨c1, c2, closeConnectionsLocked_events s, r1, r2, r3⟩,
    ⟨d1, d2, ?_, q1, q2, q3⟩, rfl, rfl⟩
  rw [DeleteAllDatabases_events, closeConnectionsLocked_events]

/-! ### Idle timer -/

theorem idleTimerExpiry_missing (s : State) (txId tx : Nat)
    (h : mapGet s.transactions txId = none) : idleTimerExpiry s txId tx = s := by
  have hs : ({ s with transactions := mapDelete s.transactions txId } : State) = s := by
    rw [mapDelete_of_mapGet_none _ _ h]
  unfold idleTimerExpiry
  simp only [h, hs]
  rfl

theorem Commit_eq_commitNative (s : State) (txId : Nat) :
    Commit s txId = commitNative (detach s txId) := by
  unfold Commit commitNative detach
  rcases mapGet s.transactions txId with _ | w <;> rfl

theorem Abort_eq_abortNative (s : State) (txId : Nat) :
    Abort s txId = abortNative (detach s txId) := by
  unfold Abort abortNative detach
  rcases mapGet s.transactions txId with _ | w <;> rfl

/-- C15: an idle-timer expiry removes its `txId` from the registry and calls
`Rollback` on the native transaction it captured exactly when `txId` is still
registered at expiry; when the entry is gone, be it right after the locked
section of `Commit` or `Abort` (the native commit not yet run) or after the whole
call, the expiry calls no `Rollback` and changes nothing. -/
theorem idle_expiry_only_when_registered (s : State) (txId tx : Nat) :
    ((mapGet s.transactions txId).isSome = true →
        (idleTimerExpiry s txId tx).transactions = mapDelete s.transactions txId ∧
        mapGet (idleTimerExpiry s txId tx).transactions txId = none ∧
        (idleTimerExpiry s txId tx).events = s.events ++ [EngineEvent.txRollback tx]) ∧
      (mapGet s.transactions txId = none → idleTimerExpiry s txId tx = s) ∧
      (EngineEvent.txRollback tx ∈ (idleTimerExpiry s txId tx).events.drop s.events.length ↔
        (mapGet s.transactions txId).isSome = true) ∧
      Commit s txId = commitNative (detach s txId) ∧
      Abort s txId = abortNative (detach s txId) ∧
      idleTimerExpiry (detach s txId).2 txId tx = (detach s txId).2 ∧
      idleTimerExpiry (Commit s txId).2 txId tx = (Commit s txId).2 ∧
      idleTimerExpiry (Abort s txId).2 txId tx = (Abort s txId).2 := by
  have hreg : (mapGet s.transactions txId).isSome = true →
      (idleTimerExpiry s txId tx).transactions = mapDelete s.transactions txId ∧
      mapGet (idleTimerExpiry s txId tx).transactions txId = none ∧
      (idleTimerExpiry s txId tx).events = s.events ++ [EngineEvent.txRollback tx] := by
    intro h
    have ht : (idleTimerExpiry s txId tx).transactions = mapDelete s.transactions txId := by
      unfold idleTimerExpiry
      simp only [h, if_true, txRollback_transactions]
    refine ⟨ht, by rw [ht]; exact mapGet_mapDelete_self _ _, ?_⟩
    unfold idleTimerExpiry
    simp only [h, if_true, txRollback_events]
  refine ⟨hreg, idleTimerExpiry_missing s txId tx, ?_, Commit_eq_commitNative s txId,
    Abort_eq_abortNative s txId, ?_, ?_, ?_⟩
  · rcases hg : mapGet s.transactions txId with _ | w
    · rw [idleTimerExpiry_missing s txId tx hg]
      simp
    · have h := (hreg (by rw [hg]; rfl)).2.2
      rw [h]
      simp
  · exact idleTimerExpiry_missing _ _ _ (mapGet_mapDelete_self _ _)
  · refine idleTimerExpiry_missing _ _ _ ?_
    rw [Commit_transactions]
    exact mapGet_mapDelete_self _ _
  · refine idleTimerExpiry_missing _ _ _ ?_
    rw [Abort_transactions]
    exact mapGet_mapDelete_self _ _

/-! ### A begin frame while a transaction is live -/

/-- `BeginTransaction` either fails and leaves the transaction registry alone, or
returns an identifier that is registered afterwards. -/
theorem BeginTransaction_cases (engine : Engine) (s : State) (dbId : Nat) :
    (∃ e, (BeginTransaction engine s dbId).1 = .error e ∧
        (BeginTransaction engine s dbId).2.transactions = s.transactions) ∨
      (∃ id w, (BeginTransaction engine s dbId).1 = .ok id ∧
        mapGet (BeginTransaction engine s dbId).2.transactions id = some w) := by
  unfold BeginTransaction
  rcases hdb : mapGet s.databases dbId with _ | db
  · exact Or.inl ⟨_, rfl, rfl⟩
  · simp only
    have r1 : regs (if s.beginHook = true then (popFault s).2 else s) = regs s := by
      split
      · exact regs_popFault s
      · rfl
    rcases hp : popFault (if s.beginHook = true then (popFault s).2 else s) with ⟨_ | e, s2⟩
    · exact Or.inr ⟨_, _, rfl, mapGet_mapSet_self _ _ _⟩
    · have r2 : regs s2 = regs s := (regs_snd hp (regs_popFault _)).trans r1
      exact Or.inl ⟨_, rfl, (regs_of_eq r2).2.1⟩

/-- C16: in a session whose current `txId` is non-zero, a begin frame makes the
driver call `Abort` on that `txId`, after which it is not registered, and then
`BeginTransaction` on the resulting state; when that succeeds the session's
`txId` is the new identifier, it is registered, a success frame is sent and the
session goes on; when it fails an error frame is sent, the session ends and the
old `txId` is not registered. -/
theorem begin_while_live (engine : Engine) (s : State) (dbId txId : Nat) (msg : TransactionMsg)
    (hcmd : msg.Cmd = "begin") (hlive : txId ≠ 0) :
    mapGet (Abort s txId).2.transactions txId = none ∧
      (transactionTurn engine s dbId txId (some msg)).state =
        (BeginTransaction engine (Abort s txId).2 dbId).2 ∧
      (∀ newId, (BeginTransaction engine (Abort s txId).2 dbId).1 = .ok newId →
        (transactionTurn engine s dbId txId (some msg)).txId = newId ∧
        (mapGet (transactionTurn engine s dbId txId (some msg)).state.transactions newId).isSome
          = true ∧
        (transactionTurn engine s dbId txId (some msg)).frames = [makeSuccessResp emptyResp] ∧
        (transactionTurn engine s dbId txId (some msg)).running = true) ∧
      (∀ err, (BeginTransaction engine (Abort s txId).2 dbId).1 = .error err →
        (transactionTurn engine s dbId txId (some msg)).frames = [makeErrorResp err] ∧
        (transactionTurn engine s dbId txId (some msg)).running = false ∧
        (transactionTurn engine s dbId txId (some msg)).txId = 0 ∧
        mapGet (transactionTurn engine s dbId txId (some msg)).state.transactions txId = none) := by
  have hgone : mapGet (Abort s txId).2.transactions txId = none := by
    rw [Abort_transactions]; exact mapGet_mapDelete_self _ _
  have hturn : transactionTurn engine s dbId txId (some msg) =
      match BeginTransaction engine (Abort s txId).2 dbId with
      | (.error err, s2) =>
        { state := s2, txId := 0, frames := [makeErrorResp err], running := false }
      | (.ok newId, s2) =>
        { state := s2, txId := newId, frames := [makeSuccessResp emptyResp], running := true } := by
    unfold transactionTurn
    simp only [hcmd, if_true, ne_eq, hlive, not_false_eq_true]
  rw [hturn]
  rcases hB : BeginTransaction engine (Abort s txId).2 dbId with ⟨err | newId, s2⟩
  · refine ⟨hgone, rfl, ?_, ?_⟩
    · intro newId h; simp at h
    · intro e h
      simp only [Except.error.injEq] at h
      subst h
      refine ⟨rfl, rfl, rfl, ?_⟩
      rcases BeginTransaction_cases engine (Abort s txId).2 dbId with ⟨e, _, h2⟩ | ⟨id, w, h1, _⟩
      · rw [hB] at h2
        simp only at h2 ⊢
        rw [h2]; exact hgone
      · rw [hB] at h1; simp at h1
  · refine ⟨hgone, rfl, ?_, ?_⟩
    · intro id h
      simp only [Except.ok.injEq] at h
      subst h
      refine ⟨rfl, ?_, rfl, rfl⟩
      rcases BeginTransaction_cases engine (Abort s txId).2 dbId with ⟨e, h1, _⟩ | ⟨id, w, h1, h2⟩
      · rw [hB] at h1; simp at h1
      · rw [hB] at h1 h2
        simp only [Except.ok.injEq] at h1 h2
        subst h1
        simp only [h2, Option.isSome_some]
    · intro e h; simp at h

theorem begin_while_live_witness :
    mapGet (Abort sampleState 2).2.transactions 2 = none ∧
      (transactionTurn insertingEngine sampleState 1 2 (some beginMsg)).state =
        (BeginTransaction insertingEngine (Abort sampleState 2).2 1).2 ∧
      (∀ newId, (BeginTransaction insertingEngine (Abort sampleState 2).2 1).1 = .ok newId →
        (transactionTurn insertingEngine sampleState 1 2 (some beginMsg)).txId = newId ∧
        (mapGet (transactionTurn insertingEngine sampleState 1 2
            (some beginMsg)).state.transactions newId).isSome = true ∧
        (transactionTurn insertingEngine sampleState 1 2 (some beginMsg)).frames
          = [makeSuccessResp emptyResp] ∧
        (transactionTurn insertingEngine sampleState 1 2 (some beginMsg)).running = true) ∧
      (∀ err, (BeginTransaction insertingEngine (Abort sampleState 2).2 1).1 = .error err →
        (transactionTurn insertingEngine sampleState 1 2 (some beginMsg)).frames
          = [makeErrorResp err] ∧
        (transactionTurn insertingEngine sampleState 1 2 (some beginMsg)).running = false ∧
        (transactionTurn insertingEngine sampleState 1 2 (some beginMsg)).txId = 0 ∧
        mapGet (transactionTurn insertingEngine sampleState 1 2
            (some beginMsg)).state.transactions 2 = none) :=
  begin_while_live insertingEngine sampleState 1 2 beginMsg (by decide) (by decide)

/-! ### Row marshalling -/

theorem mapGet_foldl_mapSet_absent (l : List (String × Cell)) (init : Record) (name : String)
    (h : ∀ p ∈ l, p.1 ≠ name) :
    mapGet (l.foldl (fun row p => mapSet row p.1 p.2) init) name = mapGet init name := by
  induction l generalizing init with
  | nil => rfl
  | cons p rest ih =>
    rw [List.foldl_cons, ih _ (fun q hq => h q (List.mem_cons_of_mem _ hq)),
      mapGet_mapSet_ne _ _ (h p (List.mem_cons_self _ _))]

/-- In the loop `row[cols[i]] = vers[i]` the last write under a key wins. -/
theorem mapGet_foldl_mapSet_last (l : List (String × Cell)) (init : Record) (j : Nat)
    (p : String × Cell) (hj : l[j]? = some p)
    (hlast : ∀ k q, j < k → l[k]? = some q → q.1 ≠ p.1) :
    mapGet (l.foldl (fun row p => mapSet row p.1 p.2) init) p.1 = some p.2 := by
  induction l generalizing init j with
  | nil => simp at hj
  | cons x rest ih =>
    rw [List.foldl_cons]
    cases j with
    | zero =>
      simp only [List.getElem?_cons_zero, Option.some.injEq] at hj
      subst hj
      rw [mapGet_foldl_mapSet_absent, mapGet_mapSet_self]
      intro q hq
      obtain ⟨k, hk⟩ := List.getElem?_of_mem hq
      exact hlast (k + 1) q (Nat.succ_pos k) (by simpa using hk)
    | succ j =>
      simp only [List.getElem?_cons_succ] at hj
      refine ih _ j hj ?_
      intro k q hk hq
      exact hlast (k + 1) q (Nat.succ_lt_succ hk) (by simpa using hq)

theorem scanSlots_getElem? (n : Nat) (cells : List Cell) (j : Nat) (cell : Cell)
    (hj : j < n) (hc : cells[j]? = some cell) : (scanSlots n cells)[j]? = some cell := by
  unfold scanSlots
  rw [List.getElem?_take_of_lt hj]
  have hlt : j < cells.length := by
    obtain ⟨h, _⟩ := List.getElem?_eq_some_iff.mp hc
    exact h
  rw [List.getElem?_append_left hlt]
  exact hc

/-- A record built from a row maps a declared column name to the cell of the last
column declared under that name, and maps no other name. -/
theorem buildRow_spec (cols : List String) (cells : List Cell) :
    (∀ (j : Nat) (name : String) (cell : Cell), cols[j]? = some name → cells[j]? = some cell →
        (∀ k : Nat, j < k → cols[k]? ≠ some name) →
        mapGet (buildRow cols cells) name = some cell) ∧
      (∀ name, name ∉ cols → mapGet (buildRow cols cells) name = none) := by
  constructor
  · intro j name cell hn hc hlast
    have hjlt : j < cols.length := by
      obtain ⟨h, _⟩ := List.getElem?_eq_some_iff.mp hn
      exact h
    have hz : (cols.zip (scanSlots cols.length cells))[j]? = some (name, cell) :=
      List.getElem?_zip_eq_some.mpr ⟨hn, scanSlots_getElem? _ _ _ _ hjlt hc⟩
    unfold buildRow
    refine mapGet_foldl_mapSet_last _ [] j (name, cell) hz ?_
    intro k q hk hq
    have hq1 := (List.getElem?_zip_eq_some.mp hq).1
    intro e
    exact hlast k hk (by rw [hq1, e])
  · intro name hn
    unfold buildRow
    rw [mapGet_foldl_mapSet_absent]
    · rfl
    · intro p hp e
      have := (List.of_mem_zip (show (p.1, p.2) ∈ _ from hp)).1
      exact hn (e ▸ this)

/-- The result of `rows.Scan` is dropped: a row whose scan fails still yields a
record and no error is returned because of it. -/
theorem buildStruct_drops_scan_error :
    (buildStruct scanFailureCursor).2 = none ∧ (buildStruct scanFailureCursor).1.length = 1 := by
  decide

/-- The rows of scenario 1 of the specification, marshalled. -/
theorem buildStruct_twoRowsCursor :
    buildStruct twoRowsCursor =
      ([[("name", Cell.text "hello"), ("id", Cell.integer 0)],
        [("name", Cell.text "hello2"), ("id", Cell.integer 1)]], none) := by
  decide

/-- C17 (as stated, refuted): for a cursor declaring the columns `id`, `id` and
one row with the cells 1, 2, nothing fails, yet the record maps the name of the
first column to 2, not to that row's cell for that column, which is 1. -/
theorem duplicate_column_name_keeps_last_cell :
    (buildStruct duplicateColumnsCursor).2 = none ∧
      duplicateColumnsCursor.columns.getD 0 "" = "id" ∧
      duplicateColumnsCursor.rows.map (fun r => r.cells.getD 0 Cell.null) = [Cell.integer 1] ∧
      (buildStruct duplicateColumnsCursor).1.map (fun record => mapGet record "id")
        = [some (Cell.integer 2)] := by
  decide

/-- C17 (amended): `buildStruct` returns an error whenever obtaining the column
metadata fails or the cursor reports an error once iteration stops; when neither
happens and every row scan succeeds, it returns one record per cursor row, in
cursor order, each mapping every declared column name to that row's cell for the
last column declared under that name (so, for a name declared once, to that row's
cell for that column) and mapping no other name. -/
theorem buildStruct_records (c : Cursor) :
    (∀ e, c.columnsErr = some e → (buildStruct c).2 = some e) ∧
      (∀ e, c.columnsErr = none → c.err = some e → (buildStruct c).2 = some e) ∧
      (c.columnsErr = none → c.err = none → (∀ r ∈ c.rows, r.scanErr = none) →
        (buildStruct c).2 = none ∧
        (buildStruct c).1.length = c.rows.length ∧
        ∀ (i : Nat) (r : ScannedRow) (record : Record),
          c.rows[i]? = some r → (buildStruct c).1[i]? = some record →
          (∀ (j : Nat) (name : String) (cell : Cell),
            c.columns[j]? = some name → r.cells[j]? = some cell →
            (∀ k : Nat, j < k → c.columns[k]? ≠ some name) → mapGet record name = some cell) ∧
          (∀ name, name ∉ c.columns → mapGet record name = none)) := by
  refine ⟨?_, ?_, ?_⟩
  · intro e he
    simp [buildStruct, he]
  · intro e hc he
    simp [buildStruct, hc, he]
  · intro hc he _
    have hb : buildStruct c = (c.rows.map (fun r => buildRow c.columns r.cells), none) := by
      simp [buildStruct, hc, he]
    rw [hb]
    refine ⟨rfl, by simp, ?_⟩
    intro i r record hr hrec
    simp only [List.getElem?_map, hr, Option.map_some', Option.some.injEq] at hrec
    subst hrec
    exact buildRow_spec c.columns r.cells

/-! ### Backing file names -/

theorem UInt8_toNat_or (a b : UInt8) : (a ||| b).toNat = a.toNat ||| b.toNat :=
  BitVec.toNat_or ..

theorem UInt32_toNat_shiftRight (v : UInt32) :
    (v >>> 6).toNat = v.toNat / 64 ∧ (v >>> 12).toNat = v.toNat / 4096 ∧
      (v >>> 18).toNat = v.toNat / 262144 := by
  refine ⟨?_, ?_, ?_⟩
  · show (v.toBitVec >>> (UInt32.mod 6 32).toBitVec).toNat = _
    have : (UInt32.mod 6 32).toBitVec = 6#32 := by decide
    rw [this]
    simp [BitVec.toNat_ushiftRight, Nat.shiftRight_eq_div_pow]
    rfl
  · show (v.toBitVec >>> (UInt32.mod 12 32).toBitVec).toNat = _
    have : (UInt32.mod 12 32).toBitVec = 12#32 := by decide
    rw [this]
    simp [BitVec.toNat_ushiftRight, Nat.shiftRight_eq_div_pow]
    rfl
  · show (v.toBitVec >>> (UInt32.mod 18 32).toBitVec).toNat = _
    have : (UInt32.mod 18 32).toBitVec = 18#32 := by decide
    rw [this]
    simp [BitVec.toNat_ushiftRight, Nat.shiftRight_eq_div_pow]
    rfl

theorem UInt32_toUInt8_toNat (v : UInt32) : v.toUInt8.toNat = v.toNat % 256 := by
  show (BitVec.ofNat 8 v.toNat).toNat = _
  simp

set_option maxRecDepth 100000 in
theorem byte_mask_or : ∀ x < 256, ((x &&& 63) ||| 128 = x % 64 + 128) ∧
    ((x &&& 31) ||| 192 = x % 32 + 192) ∧ ((x &&& 15) ||| 224 = x % 16 + 224) ∧
    ((x &&& 7) ||| 240 = x % 8 + 240) := by decide

theorem Char_val_lt (c : Char) : c.val.toNat < 1114112 := by
  rcases c.valid with h | ⟨_, h⟩
  · have : c.val.toNat < 55296 := h
    omega
  · exact h

/-- The bytes `String.utf8EncodeChar` produces are those of `utf8Nat`. -/
theorem utf8EncodeChar_toNat (c : Char) :
    (String.utf8EncodeChar c).map UInt8.toNat = utf8Nat c.val.toNat := by
  have hval := Char_val_lt c
  obtain ⟨s6, s12, s18⟩ := UInt32_toNat_shiftRight c.val
  have h1 : (c.val ≤ 0x7f) ↔ c.val.toNat ≤ 0x7f := Iff.rfl
  have h2 : (c.val ≤ 0x7ff) ↔ c.val.toNat ≤ 0x7ff := Iff.rfl
  have h3 : (c.val ≤ 0xffff) ↔ c.val.toNat ≤ 0xffff := Iff.rfl
  have c63 : (0x3f : UInt8).toNat = 63 := rfl
  have c128 : (0x80 : UInt8).toNat = 128 := rfl
  have c31 : (0x1f : UInt8).toNat = 31 := rfl
  have c192 : (0xc0 : UInt8).toNat = 192 := rfl
  have c15 : (0x0f : UInt8).toNat = 15 := rfl
  have c224 : (0xe0 : UInt8).toNat = 224 := rfl
  have c7 : (0x07 : UInt8).toNat = 7 := rfl
  have c240 : (0xf0 : UInt8).toNat = 240 := rfl
  have hb := fun x (hx : x < 256) => byte_mask_or x hx
  unfold String.utf8EncodeChar utf8Nat
  simp only [h1, h2, h3]
  by_cases k1 : c.val.toNat ≤ 0x7f
  · simp only [k1, if_true, List.map, UInt32_toUInt8_toNat]
    congr 1
    omega
  · by_cases k2 : c.val.toNat ≤ 0x7ff
    · simp only [k1, k2, if_true, if_false, List.map, UInt8_toNat_or, UInt8.and_toNat,
        UInt32_toUInt8_toNat, s6, c63, c128, c31, c192]
      rw [(hb (c.val.toNat / 64 % 256) (by omega)).2.1, (hb (c.val.toNat % 256) (by omega)).1]
      congr 1
      · omega
      · congr 1; omega
    · by_cases k3 : c.val.toNat ≤ 0xffff
      · simp only [k1, k2, k3, if_true, if_false, List.map, UInt8_toNat_or, UInt8.and_toNat,
          UInt32_toUInt8_toNat, s6, s12, c63, c128, c15, c224]
        rw [(hb (c.val.toNat / 4096 % 256) (by omega)).2.2.1,
          (hb (c.val.toNat / 64 % 256) (by omega)).1, (hb (c.val.toNat % 256) (by omega)).1]
        congr 1
        · omega
        · congr 1
          · omega
          · congr 1; omega
      · simp only [k1, k2, k3, if_false, List.map, UInt8_toNat_or, UInt8.and_toNat,
          UInt32_toUInt8_toNat, s6, s12, s18, c63, c128, c7, c240]
        rw [(hb (c.val.toNat / 262144 % 256) (by omega)).2.2.2,
          (hb (c.val.toNat / 4096 % 256) (by omega)).1,
          (hb (c.val.toNat / 64 % 256) (by omega)).1, (hb (c.val.toNat % 256) (by omega)).1]
        congr 1
        · omega
        · congr 1
          · omega
          · congr 1
            · omega
            · congr 1; omega

theorem utf8Nat_ne_nil (v : Nat) : utf8Nat v ≠ [] := by
  unfold utf8Nat
  split_ifs <;> simp

/-- UTF-8 is a prefix code: the encoding of a code point at the head of a byte
sequence determines the code point and the rest. -/
theorem utf8Nat_prefix (v w : Nat) (X Y : List Nat) (hv : v < 1114112) (hw : w < 1114112)
    (h : utf8Nat v ++ X = utf8Nat w ++ Y) : v = w ∧ X = Y := by
  unfold utf8Nat at h
  split_ifs at h <;>
    simp only [List.cons_append, List.nil_append, List.cons.injEq] at h <;>
    first
      | exact ⟨by omega, h.2⟩
      | exact ⟨by omega, h.2.2⟩
      | exact ⟨by omega, h.2.2.2⟩
      | exact ⟨by omega, h.2.2.2.2⟩
      | (exfalso; omega)

theorem utf8Bytes_cons (c : Char) (rest : List Char) :
    utf8Bytes (String.mk (c :: rest)) = utf8Nat c.val.toNat ++ utf8Bytes (String.mk rest) := by
  simp only [utf8Bytes, List.flatMap_cons, List.map_append, utf8EncodeChar_toNat]

theorem utf8Bytes_lt (N : String) : ∀ b ∈ utf8Bytes N, b < 256 := by
  intro b hb
  obtain ⟨u, _, rfl⟩ := List.mem_map.mp hb
  exact UInt8.toNat_lt_size u

/-- Distinct strings have distinct UTF-8 byte sequences. -/
theorem utf8Bytes_injective (l m : List Char)
    (h : utf8Bytes (String.mk l) = utf8Bytes (String.mk m)) : l = m := by
  induction l generalizing m with
  | nil =>
    cases m with
    | nil => rfl
    | cons d rest =>
      rw [utf8Bytes_cons] at h
      have h0 : utf8Bytes (String.mk []) = [] := rfl
      rw [h0] at h
      have := utf8Nat_ne_nil d.val.toNat
      cases hd : utf8Nat d.val.toNat with
      | nil => exact absurd hd this
      | cons x xs => rw [hd] at h; simp at h
  | cons c rest ih =>
    cases m with
    | nil =>
      rw [utf8Bytes_cons] at h
      have h0 : utf8Bytes (String.mk []) = [] := rfl
      rw [h0] at h
      have := utf8Nat_ne_nil c.val.toNat
      cases hd : utf8Nat c.val.toNat with
      | nil => exact absurd hd this
      | cons x xs => rw [hd] at h; simp at h
    | cons d rest2 =>
      rw [utf8Bytes_cons, utf8Bytes_cons] at h
      obtain ⟨hv, hrest⟩ := utf8Nat_prefix _ _ _ _ (Char_val_lt c) (Char_val_lt d) h
      have hcd : c = d := Char.eq_of_val_eq (UInt32.toNat.inj hv)
      rw [hcd, ih rest2 hrest]

set_option maxRecDepth 100000 in
theorem hexDigit_injective : ∀ i < 16, ∀ j < 16,
    hexDigits.getD i '0' = hexDigits.getD j '0' → i = j := by decide

set_option maxRecDepth 100000 in
theorem hexDigit_mem : ∀ i < 16, hexDigits.getD i '0' ∈ hexDigits ∧
    upperHexDigits.getD i '0' ∈ upperHexDigits := by decide

theorem hexEncode_cons (b : Nat) (rest : List Nat) :
    hexEncode (b :: rest) =
      hexDigits.getD (b / 16) '0' :: hexDigits.getD (b % 16) '0' :: hexEncode rest := by
  simp [hexEncode, List.flatMap_cons]

/-- The lowercase hexadecimal encoding determines the bytes. -/
theorem hexEncode_injective (l m : List Nat) (hl : ∀ b ∈ l, b < 256) (hm : ∀ b ∈ m, b < 256)
    (h : hexEncode l = hexEncode m) : l = m := by
  induction l generalizing m with
  | nil =>
    cases m with
    | nil => rfl
    | cons y ys => rw [hexEncode_cons] at h; exact absurd h (by simp [hexEncode])
  | cons x xs ih =>
    cases m with
    | nil => rw [hexEncode_cons] at h; exact absurd h (by simp [hexEncode])
    | cons y ys =>
      rw [hexEncode_cons, hexEncode_cons] at h
      simp only [List.cons.injEq] at h
      obtain ⟨h1, h2, h3⟩ := h
      have hx := hl x (List.mem_cons_self _ _)
      have hy := hm y (List.mem_cons_self _ _)
      have e1 := hexDigit_injective (x / 16) (by omega) (y / 16) (by omega) h1
      have e2 := hexDigit_injective (x % 16) (by omega) (y % 16) (by omega) h2
      have hxy : x = y := by omega
      rw [hxy, ih ys (fun b hb => hl b (List.mem_cons_of_mem _ hb))
        (fun b hb => hm b (List.mem_cons_of_mem _ hb)) h3]

theorem hexEncode_chars (l : List Nat) (hl : ∀ b ∈ l, b < 256) :
    ∀ ch ∈ hexEncode l, ch ∈ hexDigits := by
  induction l with
  | nil => intro ch hch; simp [hexEncode] at hch
  | cons x xs ih =>
    intro ch hch
    have hx := hl x (List.mem_cons_self _ _)
    rw [hexEncode_cons] at hch
    rcases List.mem_cons.mp hch with h1 | h1
    · rw [h1]; exact (hexDigit_mem (x / 16) (by omega)).1
    · rcases List.mem_cons.mp h1 with h2 | h2
      · rw [h2]; exact (hexDigit_mem (x % 16) (by omega)).1
      · exact ih (fun b hb => hl b (List.mem_cons_of_mem _ hb)) ch h2

/-- Two lists that agree up to the first occurrence of a separator agree before it. -/
theorem split_at_first {α : Type} (a : α) (l1 l2 r1 r2 : List α) (h1 : a ∉ l1) (h2 : a ∉ l2)
    (h : l1 ++ a :: r1 = l2 ++ a :: r2) : l1 = l2 := by
  induction l1 generalizing l2 with
  | nil =>
    cases l2 with
    | nil => rfl
    | cons y ys =>
      simp only [List.nil_append, List.cons_append, List.cons.injEq] at h
      exact absurd (h.1 ▸ List.mem_cons_self _ _) h2
  | cons x xs ih =>
    cases l2 with
    | nil =>
      simp only [List.nil_append, List.cons_append, List.cons.injEq] at h
      exact absurd (h.1 ▸ List.mem_cons_self _ _) h1
    | cons y ys =>
      simp only [List.cons_append, List.cons.injEq] at h
      rw [h.1, ih ys (fun hm => h1 (List.mem_cons_of_mem _ hm))
        (fun hm => h2 (List.mem_cons_of_mem _ hm)) h.2]

theorem isUnreserved_lt (b : Nat) (h : isUnreserved b = true) : b < 127 := by
  simp only [isUnreserved, Bool.or_eq_true, Bool.and_eq_true, decide_eq_true_eq,
    beq_iff_eq] at h
  omega

set_option maxRecDepth 100000 in
theorem unreserved_not_slash : ∀ b < 127, isUnreserved b = true → Char.ofNat b ≠ '/' := by
  decide

theorem queryEscape_no_slash (l : List Nat) (hl : ∀ b ∈ l, b < 256) :
    '/' ∉ queryEscape l := by
  intro hmem
  unfold queryEscape at hmem
  obtain ⟨b, hb, hch⟩ := List.mem_flatMap.mp hmem
  have hlt := hl b hb
  by_cases hu : isUnreserved b = true
  · simp only [hu, if_true, List.mem_singleton] at hch
    exact unreserved_not_slash b (isUnreserved_lt b hu) hu hch.symm
  · simp only [hu, Bool.false_eq_true, if_false] at hch
    by_cases hs : b = 32
    · simp only [hs, if_true, List.mem_singleton] at hch
      exact absurd hch (by decide)
    · simp only [hs, if_false, List.mem_cons, List.mem_singleton, List.not_mem_nil,
        or_false] at hch
      have m1 := (hexDigit_mem (b / 16) (by omega)).2
      have m2 := (hexDigit_mem (b % 16) (by omega)).2
      rcases hch with h | h | h
      · exact absurd h (by decide)
      · rw [← h] at m1; exact absurd m1 (by decide)
      · rw [← h] at m2; exact absurd m2 (by decide)

theorem dbFileName_data (N : String) :
    (dbFileName N).data =
      queryEscape (utf8Bytes N) ++ ['_'] ++ hexEncode (utf8Bytes N) ++ ".db".toList := rfl

theorem underscore_not_hex (N : String) : '_' ∉ hexEncode (utf8Bytes N) := by
  intro h
  exact absurd (hexEncode_chars _ (utf8Bytes_lt N) _ h) (by decide)

theorem dbFileName_injective (N M : String) (h : dbFileName N = dbFileName M) : N = M := by
  have hd : (dbFileName N).data = (dbFileName M).data := by rw [h]
  rw [dbFileName_data, dbFileName_data] at hd
  have h1 := List.append_cancel_right hd
  have h2 := congrArg List.reverse h1
  simp only [List.reverse_append, List.reverse_cons, List.reverse_nil, List.nil_append,
    List.singleton_append] at h2
  have h3 := split_at_first '_' _ _ _ _
    (fun hm => underscore_not_hex N (List.mem_reverse.mp hm))
    (fun hm => underscore_not_hex M (List.mem_reverse.mp hm)) h2
  have h4 : hexEncode (utf8Bytes N) = hexEncode (utf8Bytes M) := List.reverse_injective h3
  have h5 := hexEncode_injective _ _ (utf8Bytes_lt N) (utf8Bytes_lt M) h4
  have h6 : N.data = M.data := utf8Bytes_injective N.data M.data h5
  exact String.ext h6

theorem dbFileName_no_slash (N : String) : '/' ∉ (dbFileName N).data := by
  rw [dbFileName_data]
  intro h
  simp only [List.mem_append, List.mem_singleton] at h
  rcases h with ((h | h) | h) | h
  · exact queryEscape_no_slash _ (utf8Bytes_lt N) h
  · exact absurd h (by decide)
  · exact absurd (hexEncode_chars _ (utf8Bytes_lt N) _ h) (by decide)
  · exact absurd h (by decide)

theorem isDbFileIn_dbPath (dir N : String) : isDbFileIn dir (dir ++ "/" ++ dbFileName N) = true := by
  have hdata : (dir ++ "/" ++ dbFileName N).data = (dir ++ "/").data ++ (dbFileName N).data := by
    simp [String.data_append]
  unfold isDbFileIn
  rw [hdata]
  simp only [Bool.and_eq_true, Bool.not_eq_true', List.drop_left]
  refine ⟨⟨?_, ?_⟩, ?_⟩
  · exact List.isPrefixOf_iff_prefix.mpr (List.prefix_append _ _)
  · have := dbFileName_no_slash N
    simpa using this
  · refine List.isSuffixOf_iff_suffix.mpr ?_
    rw [dbFileName_data]
    exact (List.suffix_append _ _).trans (List.suffix_append _ _)

/-- C12: for every logical name `N` the backing file name `Open` computes is
`QueryEscape(N)`, then "_", then the lowercase hexadecimal encoding of the UTF-8
bytes of `N`, then ".db"; the mapping is injective; the file name contains no path
separator, so the path `Open` uses names an entry directly in the configured DB
directory (or is the bare file name when no directory is configured). -/
theorem dbFileName_spec :
    (∀ N, dbFileName N =
        String.mk (queryEscape (utf8Bytes N)) ++ "_" ++ String.mk (hexEncode (utf8Bytes N))
          ++ ".db") ∧
      dbFileName "a b/c_é" = "a+b%2Fc_%C3%A9_6120622f635fc3a9.db" ∧
      (∀ N M, dbFileName N = dbFileName M → N = M) ∧
      (∀ N, '/' ∉ (dbFileName N).data) ∧
      (∀ dir N, dir ≠ "" → dbPath dir N = dir ++ "/" ++ dbFileName N ∧
        isDbFileIn dir (dbPath dir N) = true) ∧
      (∀ N, dbPath "" N = dbFileName N) := by
  refine ⟨?_, by decide, dbFileName_injective, dbFileName_no_slash, ?_, ?_⟩
  · intro N
    apply String.ext
    simp [dbFileName_data, String.data_append]
  · intro dir N hdir
    have hp : dbPath dir N = dir ++ "/" ++ dbFileName N := by
      simp [dbPath, hdir, filepathJoin]
    exact ⟨hp, by rw [hp]; exact isDbFileIn_dbPath dir N⟩
  · intro N
    simp [dbPath]

end WebSQL
